import Mathlib

/-!
Shallow embedding of the field-aware document scoring engine of
`src/Assigments/A2_2/A2_2.py` (DocumentCollection, inverted index, and the
five scorers SimpleScorer, ScorerBM25, ScorerLM, ScorerBM25F, ScorerMLM),
together with theorems settling the specification claims.

Python dictionaries are embedded as association lists (iteration in insertion
order, as Python guarantees), floats as real numbers, and fallible Python
operations (dict lookup, list indexing, division, `math.log`) as computations
in an `Except` monad tagged with the Python error class they raise.
-/

/-- The classes of Python runtime errors the scoring code can raise. -/
inductive PyErr : Type
  | keyError
  | zeroDivisionError
  | valueError
  | indexError
deriving DecidableEq

/-- A fallible Python computation. -/
abbrev Py (α : Type) : Type := Except PyErr α

instance {ε α : Type} [DecidableEq ε] [DecidableEq α] :
    DecidableEq (Except ε α) := fun x y =>
  match x, y with
  | .ok a, .ok b =>
    if h : a = b then isTrue (by rw [h])
    else isFalse (fun hh => h (Except.ok.inj hh))
  | .error e, .error f =>
    if h : e = f then isTrue (by rw [h])
    else isFalse (fun hh => h (Except.error.inj hh))
  | .ok _, .error _ => isFalse (fun hh => Except.noConfusion hh)
  | .error _, .ok _ => isFalse (fun hh => Except.noConfusion hh)

/-- A document: mapping from field name to the field's term sequence. -/
abbrev Fields : Type := List (String × List String)

/-- A document collection: mapping from document id to document. -/
abbrev DocumentCollection : Type := List (String × Fields)

/-- Inverted index: field name → term → posting set (document ids). -/
abbrev Index : Type := List (String × List (String × List String))

/-- The score accumulator: mapping from document id to accumulated score. -/
abbrev Scores : Type := List (String × ℝ)

/-- Python `doc[field]`: raises `KeyError` when the field is missing. -/
def pyGetField (doc : Fields) (field : String) : Py (List String) :=
  match doc.find? (fun p => p.1 == field) with
  | some p => .ok p.2
  | none => .error .keyError

/-- Python `lst[i]` on a list of floats: raises `IndexError` out of range. -/
def pyIdx (l : List ℝ) (i : Nat) : Py ℝ :=
  if h : i < l.length then .ok (l.get ⟨i, h⟩) else .error .indexError

/-- Python float division: raises `ZeroDivisionError` on a zero divisor. -/
noncomputable def pyDiv (x y : ℝ) : Py ℝ :=
  if y = 0 then .error .zeroDivisionError else .ok (x / y)

/-- Python `math.log`: raises `ValueError` on a non-positive argument. -/
noncomputable def pyLog (x : ℝ) : Py ℝ :=
  if 0 < x then .ok (Real.log x) else .error .valueError

/-- Python `terms.count(term)`. -/
def countTerm (terms : List String) (term : String) : Nat :=
  (terms.filter (fun u => u == term)).length

/-- `self.index[field][term]`: two chained dict lookups, each may `KeyError`. -/
def idxGet (idx : Index) (field term : String) : Py (List String) :=
  match idx.find? (fun p => p.1 == field) with
  | none => .error .keyError
  | some p =>
    match p.2.find? (fun q => q.1 == term) with
    | none => .error .keyError
    | some q => .ok q.2

/-- The per-document field lookups made by the generator
`(len(fields[field]) for fields in self.values())`: the term sequences of the
field in collection order, aborting with `KeyError` at the first document
lacking the field. -/
def fieldSeqs (c : DocumentCollection) (field : String) : Py (List (List String)) :=
  match c with
  | [] => .ok []
  | p :: rest => do
    let ts ← pyGetField p.2 field
    let rs ← fieldSeqs rest field
    .ok (ts :: rs)

/-- `DocumentCollection.total_field_length`: Python
`sum(len(fields[field]) for fields in self.values())` — the unguarded
`fields[field]` raises `KeyError` on a document lacking the field. -/
def DocumentCollection.total_field_length
    (c : DocumentCollection) (field : String) : Py Nat :=
  (fieldSeqs c field).map (fun ls => (ls.map List.length).sum)

/-- `DocumentCollection.avg_field_length`: `total_field_length(field) / len(self)`
(`ZeroDivisionError` on an empty collection). -/
noncomputable def DocumentCollection.avg_field_length
    (c : DocumentCollection) (field : String) : Py ℝ := do
  let total ← DocumentCollection.total_field_length c field
  pyDiv (total : ℝ) (c.length : ℝ)

/-- Lookup in the score accumulator (`None` when the document is absent). -/
def lookupScore (s : Scores) (d : String) : Option ℝ :=
  (s.find? (fun p => p.1 == d)).map Prod.snd

/-- A document's score, treating absence from the mapping as 0. -/
noncomputable def getScore (s : Scores) (d : String) : ℝ :=
  (lookupScore s d).getD 0

/-- `self.scores[doc_id] += x` on a `defaultdict(float)`: add in place when the
key is present, otherwise insert it at the end with value `x`. -/
noncomputable def addScore (s : Scores) (d : String) (x : ℝ) : Scores :=
  match s with
  | [] => [(d, x)]
  | p :: rest =>
    if p.1 == d then (p.1, p.2 + x) :: rest else p :: addScore rest d x

/-- The shared `for doc_id, doc in self.collection.items():` loop of every
`score_term`: run `contrib` on each document; `some x` adds `x` to that
document's accumulated score, `none` leaves the document untouched, and a
raised error aborts the whole call. -/
noncomputable def forEachDoc
    (c : DocumentCollection) (scores : Scores)
    (contrib : Fields → Py (Option ℝ)) : Py Scores :=
  match c with
  | [] => .ok scores
  | (doc_id, doc) :: rest => do
    match ← contrib doc with
    | some x => forEachDoc rest (addScore scores doc_id x) contrib
    | none => forEachDoc rest scores contrib

/-- Python `Counter` key order: first-occurrence order of the distinct terms. -/
def firstOccurrences : List String → List String
  | [] => []
  | t :: ts => t :: firstOccurrences (ts.filter (fun u => u != t))
termination_by l => l.length
decreasing_by
  exact Nat.lt_succ_of_le (List.length_filter_le _ _)

/-- `Counter(query_terms).items()`: distinct terms in first-occurrence order,
each with its total count in the query. -/
def counter (query_terms : List String) : List (String × Nat) :=
  (firstOccurrences query_terms).map (fun t => (t, countTerm query_terms t))

/-- `Scorer.score_collection`: reset the accumulator, then term-at-a-time
processing over the query's distinct terms with their frequencies. -/
noncomputable def runScorer
    (score_term : String → Nat → Scores → Py Scores)
    (query_terms : List String) : Py Scores :=
  (counter query_terms).foldlM (fun scores p => score_term p.1 p.2 scores) []

/-- `SimpleScorer.score_term` loop body: when the document's configured field
contains the term, add `count(term) * query_freq`. -/
noncomputable def SimpleScorer.contrib
    (field term : String) (query_freq : Nat) (doc : Fields) : Py (Option ℝ) := do
  let terms ← pyGetField doc field
  if term ∈ terms then
    return some ((countTerm terms term * query_freq : Nat) : ℝ)
  else
    return none

/-- `SimpleScorer.score_term`. -/
noncomputable def SimpleScorer.score_term
    (c : DocumentCollection) (field : String)
    (term : String) (query_freq : Nat) (scores : Scores) : Py Scores :=
  forEachDoc c scores (SimpleScorer.contrib field term query_freq)

/-- `SimpleScorer.score_collection`. -/
noncomputable def SimpleScorer.score_collection
    (c : DocumentCollection) (field : String)
    (query_terms : List String) : Py Scores :=
  runScorer (SimpleScorer.score_term c field) query_terms

/-- `ScorerBM25.score_term` loop body: when the document's field contains the
term, compute `idf` from the index, the saturated tf numerator/denominator,
and add `(numerator / denominator) * idf`. -/
noncomputable def ScorerBM25.contrib
    (c : DocumentCollection) (idx : Index) (field : String) (b k1 : ℝ)
    (term : String) (doc : Fields) : Py (Option ℝ) := do
  let terms ← pyGetField doc field
  if term ∈ terms then
    let postings ← idxGet idx field term
    let ratio ← pyDiv (c.length : ℝ) (postings.length : ℝ)
    let idf ← pyLog ratio
    let c_t_d : ℝ := (countTerm terms term : ℝ)
    let numerator := c_t_d * (1 + k1)
    let avg ← DocumentCollection.avg_field_length c field
    let lenOverAvg ← pyDiv (b * (terms.length : ℝ)) avg
    let denominator := c_t_d + k1 * (1 - b + lenOverAvg)
    let frac ← pyDiv numerator denominator
    return some (frac * idf)
  else
    return none

/-- `ScorerBM25.score_term`. -/
noncomputable def ScorerBM25.score_term
    (c : DocumentCollection) (idx : Index) (field : String) (b k1 : ℝ)
    (term : String) (query_freq : Nat) (scores : Scores) : Py Scores :=
  forEachDoc c scores (ScorerBM25.contrib c idx field b k1 term)

/-- `ScorerBM25.score_collection`. -/
noncomputable def ScorerBM25.score_collection
    (c : DocumentCollection) (idx : Index) (field : String) (b k1 : ℝ)
    (query_terms : List String) : Py Scores :=
  runScorer (ScorerBM25.score_term c idx field b k1) query_terms

/-- The collection probability `P(t|C)` computed by both language-model
scorers: `sum([doc[field].count(term) for doc in self.collection.values()])
/ self.collection.total_field_length(field)`. -/
noncomputable def collectionProb
    (c : DocumentCollection) (field term : String) : Py ℝ := do
  let seqs ← fieldSeqs c field
  let counts := seqs.map (fun ts => countTerm ts term)
  let total ← DocumentCollection.total_field_length c field
  pyDiv ((counts.sum : ℕ) : ℝ) ((total : ℕ) : ℝ)

/-- `ScorerLM.score_term` loop body (with the per-term `P(t|C)` passed in):
when the document's field contains the term, add
`query_freq * log((1 - λ) * (count / field_length) + λ * P(t|C))`. -/
noncomputable def ScorerLM.contrib
    (field : String) (smoothing_param : ℝ) (term : String) (query_freq : Nat)
    (P_t_C : ℝ) (doc : Fields) : Py (Option ℝ) := do
  let terms ← pyGetField doc field
  if term ∈ terms then
    let ratio ← pyDiv ((countTerm terms term : ℕ) : ℝ) ((terms.length : ℕ) : ℝ)
    let v ← pyLog ((1 - smoothing_param) * ratio + smoothing_param * P_t_C)
    return some ((query_freq : ℝ) * v)
  else
    return none

/-- `ScorerLM.score_term`: `P(t|C)` is computed once before the document
loop (and the computation touches every document's field unguarded). -/
noncomputable def ScorerLM.score_term
    (c : DocumentCollection) (field : String) (smoothing_param : ℝ)
    (term : String) (query_freq : Nat) (scores : Scores) : Py Scores := do
  let P_t_C ← collectionProb c field term
  forEachDoc c scores
    (ScorerLM.contrib field smoothing_param term query_freq P_t_C)

/-- `ScorerLM.score_collection`. -/
noncomputable def ScorerLM.score_collection
    (c : DocumentCollection) (field : String) (smoothing_param : ℝ)
    (query_terms : List String) : Py Scores :=
  runScorer (ScorerLM.score_term c field smoothing_param) query_terms

/-- The `for field_index, field in enumerate(self.fields)` loop of
`ScorerBM25F.score_term`, accumulating the pseudo-frequency `c_t_d` and the
`idf` (set only when the field is `"body"`). -/
noncomputable def ScorerBM25F.fieldLoop
    (c : DocumentCollection) (idx : Index) (field_weights bi : List ℝ)
    (term : String) (doc : Fields) :
    List String → Nat → ℝ → ℝ → Py (ℝ × ℝ)
  | [], _, c_t_d, idf => .ok (c_t_d, idf)
  | field :: rest, i, c_t_d, idf => do
    let b_i ← pyIdx bi i
    let terms ← pyGetField doc field
    let avg ← DocumentCollection.avg_field_length c field
    let lenOverAvg ← pyDiv (b_i * (terms.length : ℝ)) avg
    let B_i := 1 - b_i + lenOverAvg
    let w ← pyIdx field_weights i
    let tfOverB ← pyDiv ((countTerm terms term : ℕ) : ℝ) B_i
    let c_t_d' := c_t_d + w * tfOverB
    let idf' ←
      if field == "body" then do
        let postings ← idxGet idx field term
        let ratio ← pyDiv (c.length : ℝ) (postings.length : ℝ)
        pyLog ratio
      else
        pure idf
    ScorerBM25F.fieldLoop c idx field_weights bi term doc rest (i + 1) c_t_d' idf'

/-- `ScorerBM25F.score_term` loop body: the field loop followed by the single
saturation step `(c_t_d / (k1 + c_t_d)) * idf`, added for every document
(no "contains term" guard). -/
noncomputable def ScorerBM25F.contrib
    (c : DocumentCollection) (idx : Index) (fields : List String)
    (field_weights bi : List ℝ) (k1 : ℝ) (term : String)
    (doc : Fields) : Py (Option ℝ) := do
  let r ← ScorerBM25F.fieldLoop c idx field_weights bi term doc fields 0 0 0
  let sat ← pyDiv r.1 (k1 + r.1)
  return some (sat * r.2)

/-- `ScorerBM25F.score_term`. -/
noncomputable def ScorerBM25F.score_term
    (c : DocumentCollection) (idx : Index) (fields : List String)
    (field_weights bi : List ℝ) (k1 : ℝ)
    (term : String) (query_freq : Nat) (scores : Scores) : Py Scores :=
  forEachDoc c scores
    (ScorerBM25F.contrib c idx fields field_weights bi k1 term)

/-- `ScorerBM25F.score_collection`. -/
noncomputable def ScorerBM25F.score_collection
    (c : DocumentCollection) (idx : Index) (fields : List String)
    (field_weights bi : List ℝ) (k1 : ℝ)
    (query_terms : List String) : Py Scores :=
  runScorer (ScorerBM25F.score_term c idx fields field_weights bi k1)
    query_terms

/-- The `for field_index, field in enumerate(self.fields)` loop of
`ScorerMLM.score_term`, accumulating the mixed per-field term probability
`c_t_d` and the mixed collection probability `P_t_C`. -/
noncomputable def ScorerMLM.fieldLoop
    (c : DocumentCollection) (field_weights : List ℝ)
    (term : String) (doc : Fields) :
    List String → Nat → ℝ → ℝ → Py (ℝ × ℝ)
  | [], _, c_t_d, P_t_C => .ok (c_t_d, P_t_C)
  | field :: rest, i, c_t_d, P_t_C => do
    let w ← pyIdx field_weights i
    let terms ← pyGetField doc field
    let ratio ← pyDiv ((countTerm terms term : ℕ) : ℝ) ((terms.length : ℕ) : ℝ)
    let c_t_d' := c_t_d + w * ratio
    let w' ← pyIdx field_weights i
    let Pf ← collectionProb c field term
    let P_t_C' := P_t_C + w' * Pf
    ScorerMLM.fieldLoop c field_weights term doc rest (i + 1) c_t_d' P_t_C'

/-- `ScorerMLM.score_term` loop body: the field loop followed by
`log((1 - λ) * c_t_d + λ * P_t_C)`, added for every document
(no guard; the query frequency is never used). -/
noncomputable def ScorerMLM.contrib
    (c : DocumentCollection) (fields : List String)
    (field_weights : List ℝ) (smoothing_param : ℝ) (term : String)
    (doc : Fields) : Py (Option ℝ) := do
  let r ← ScorerMLM.fieldLoop c field_weights term doc fields 0 0 0
  let v ← pyLog ((1 - smoothing_param) * r.1 + smoothing_param * r.2)
  return some v

/-- `ScorerMLM.score_term`. -/
noncomputable def ScorerMLM.score_term
    (c : DocumentCollection) (fields : List String)
    (field_weights : List ℝ) (smoothing_param : ℝ)
    (term : String) (query_freq : Nat) (scores : Scores) : Py Scores :=
  forEachDoc c scores
    (ScorerMLM.contrib c fields field_weights smoothing_param term)

/-- `ScorerMLM.score_collection`. -/
noncomputable def ScorerMLM.score_collection
    (c : DocumentCollection) (fields : List String)
    (field_weights : List ℝ) (smoothing_param : ℝ)
    (query_terms : List String) : Py Scores :=
  runScorer (ScorerMLM.score_term c fields field_weights smoothing_param)
    query_terms

/-- `getD 0` of the optional contribution of one document. -/
noncomputable def optVal (r : Option ℝ) : ℝ := r.getD 0

/-- The list of `(doc_id, contribution)` pairs the document loop would add:
the loop's effect separated from the accumulator it is applied to. -/
noncomputable def runContribs (contrib : Fields → Py (Option ℝ)) :
    DocumentCollection → Py (List (String × ℝ))
  | [] => .ok []
  | (doc_id, doc) :: rest => do
    let r ← contrib doc
    let ds ← runContribs contrib rest
    match r with
    | some x => .ok ((doc_id, x) :: ds)
    | none => .ok ds

/-- Apply a list of `(doc_id, delta)` pairs to an accumulator in order. -/
noncomputable def applyDeltas (s : Scores) : List (String × ℝ) → Scores
  | [] => s
  | (d, x) :: ds => applyDeltas (addScore s d x) ds

/-- Total delta applied to one document id by a delta list. -/
noncomputable def sumDeltas (ds : List (String × ℝ)) (e : String) : ℝ :=
  ((ds.filter (fun p => p.1 == e)).map Prod.snd).sum

/-- The length a document's field would contribute when present (0 if the
field is absent) — used to state sums over the collection. -/
def docFieldLen (doc : Fields) (field : String) : Nat :=
  match pyGetField doc field with
  | .ok ts => ts.length
  | .error _ => 0

/-- A `score_term` implementation factors through an accumulator-independent
delta list: this holds for all five scorers, since every loop body only ever
adds to `self.scores` values computed from the collection/index alone. -/
def DeltaForm (st : String → Nat → Scores → Py Scores) : Prop :=
  ∃ D : String → Nat → Py (List (String × ℝ)),
    ∀ t qf s, st t qf s = (D t qf).map (fun ds => applyDeltas s ds)

/-- Per-document scores are additive across two distinct query terms for a
collection-scoring function, treating absent documents as score 0. -/
def AdditivePair (F : List String → Py Scores) (t1 t2 : String) : Prop :=
  ∀ s12 s1 s2, F [t1, t2] = .ok s12 → F [t1] = .ok s1 → F [t2] = .ok s2 →
    ∀ d, getScore s12 d = getScore s1 d + getScore s2 d

/-! ### Infrastructure lemmas -/

@[simp]
theorem py_bind_ok {α β : Type} (x : α) (f : α → Py β) :
    (Except.ok x : Py α) >>= f = f x := rfl

@[simp]
theorem py_bind_error {α β : Type} (e : PyErr) (f : α → Py β) :
    (Except.error e : Py α) >>= f = .error e := rfl

@[simp]
theorem py_map_ok {α β : Type} (x : α) (f : α → β) :
    (Except.ok x : Py α).map f = .ok (f x) := rfl

@[simp]
theorem py_map_error {α β : Type} (e : PyErr) (f : α → β) :
    (Except.error e : Py α).map f = .error e := rfl

@[simp]
theorem py_pure_eq_ok {α : Type} (x : α) : (pure x : Py α) = .ok x := rfl

theorem py_ok_ne_error {α : Type} (x : α) (e : PyErr) :
    (Except.ok x : Py α) ≠ .error e := by
  intro h
  exact Except.noConfusion h

@[simp]
theorem sumDeltas_nil (e : String) : sumDeltas [] e = 0 := rfl

theorem sumDeltas_cons (d : String) (x : ℝ) (ds : List (String × ℝ))
    (e : String) :
    sumDeltas ((d, x) :: ds) e =
      (if d = e then x else 0) + sumDeltas ds e := by
  by_cases h : d = e <;> simp [sumDeltas, List.filter_cons, h]

@[simp]
theorem getScore_nil (d : String) : getScore [] d = 0 := rfl

theorem lookupScore_nil (e : String) : lookupScore [] e = none := rfl

theorem lookupScore_cons (p : String × ℝ) (rest : Scores) (e : String) :
    lookupScore (p :: rest) e =
      if p.1 == e then some p.2 else lookupScore rest e := by
  cases hpe : p.1 == e <;>
    simp [lookupScore, List.find?_cons, hpe]

theorem addScore_nil (d : String) (x : ℝ) : addScore [] d x = [(d, x)] := rfl

theorem addScore_cons (p : String × ℝ) (rest : Scores) (d : String) (x : ℝ) :
    addScore (p :: rest) d x =
      if p.1 == d then (p.1, p.2 + x) :: rest else p :: addScore rest d x :=
  rfl

theorem getScore_addScore (s : Scores) (d : String) (x : ℝ) (e : String) :
    getScore (addScore s d x) e =
      getScore s e + (if d = e then x else 0) := by
  induction s with
  | nil =>
    cases hde : d == e
    · have h : d ≠ e := ne_of_beq_false hde
      simp [addScore_nil, getScore, lookupScore_cons, lookupScore_nil, hde, h]
    · have h : d = e := eq_of_beq hde
      subst h
      simp [addScore_nil, getScore, lookupScore_cons, lookupScore_nil]
  | cons p rest ih =>
    rw [addScore_cons]
    cases hpd : p.1 == d
    · rw [if_neg (by simp [hpd])]
      cases hpe : p.1 == e
      · unfold getScore
        rw [lookupScore_cons, lookupScore_cons, if_neg (by simp [hpe]),
          if_neg (by simp [hpe])]
        exact ih
      · have hde : d ≠ e := by
          intro h
          subst h
          rw [hpd] at hpe
          exact Bool.false_ne_true hpe
        unfold getScore
        rw [lookupScore_cons, lookupScore_cons, if_pos hpe, if_pos hpe]
        simp [hde]
    · have hpd' : p.1 = d := eq_of_beq hpd
      rw [if_pos rfl]
      cases hpe : p.1 == e
      · have hde : d ≠ e := by
          intro h
          rw [hpd'.trans h] at hpe
          simp at hpe
        unfold getScore
        rw [lookupScore_cons, lookupScore_cons]
        simp only [hpe]
        simp [hde]
      · have hde : d = e := hpd' ▸ eq_of_beq hpe
        unfold getScore
        rw [lookupScore_cons, lookupScore_cons]
        simp only [hpe]
        simp [hde]

theorem lookupScore_addScore_isSome (s : Scores) (d : String) (x : ℝ)
    (e : String) :
    (lookupScore (addScore s d x) e).isSome =
      ((lookupScore s e).isSome || (d == e)) := by
  induction s with
  | nil =>
    cases hde : d == e <;>
      simp [addScore_nil, lookupScore_cons, lookupScore_nil, hde]
  | cons p rest ih =>
    rw [addScore_cons]
    cases hpd : p.1 == d
    · rw [if_neg (by simp [hpd])]
      cases hpe : p.1 == e
      · rw [lookupScore_cons, lookupScore_cons, if_neg (by simp [hpe]),
          if_neg (by simp [hpe])]
        exact ih
      · rw [lookupScore_cons, lookupScore_cons, if_pos hpe, if_pos hpe]
        simp
    · have hpd' : p.1 = d := eq_of_beq hpd
      rw [if_pos rfl]
      cases hpe : p.1 == e
      · have hde : (d == e) = false := by
          rw [← hpd']
          exact hpe
        rw [lookupScore_cons, lookupScore_cons]
        simp only [hpe]
        simp [hde]
      · rw [lookupScore_cons, lookupScore_cons]
        simp only [hpe]
        simp

theorem getScore_applyDeltas (ds : List (String × ℝ)) (s : Scores)
    (e : String) :
    getScore (applyDeltas s ds) e = getScore s e + sumDeltas ds e := by
  induction ds generalizing s with
  | nil => simp [applyDeltas]
  | cons p rest ih =>
    obtain ⟨d, x⟩ := p
    rw [applyDeltas, ih, getScore_addScore, sumDeltas_cons]
    ring

theorem lookupScore_applyDeltas_isSome (ds : List (String × ℝ)) (s : Scores)
    (e : String) :
    (lookupScore (applyDeltas s ds) e).isSome =
      ((lookupScore s e).isSome || ds.any (fun p => p.1 == e)) := by
  induction ds generalizing s with
  | nil => simp [applyDeltas]
  | cons p rest ih =>
    obtain ⟨d, x⟩ := p
    rw [applyDeltas, ih, lookupScore_addScore_isSome]
    simp [Bool.or_assoc, Bool.or_comm, Bool.or_left_comm]

theorem forEachDoc_eq (c : DocumentCollection)
    (contrib : Fields → Py (Option ℝ)) (s : Scores) :
    forEachDoc c s contrib =
      (runContribs contrib c).map (fun ds => applyDeltas s ds) := by
  induction c generalizing s with
  | nil => rfl
  | cons p rest ih =>
    obtain ⟨did, doc⟩ := p
    show (do
        match ← contrib doc with
        | some x => forEachDoc rest (addScore s did x) contrib
        | none => forEachDoc rest s contrib) = _
    rw [runContribs]
    cases hr : contrib doc with
    | error e => simp
    | ok r =>
      cases r with
      | none =>
        simp only [py_bind_ok]
        rw [ih]
        cases hds : runContribs contrib rest <;> simp
      | some x =>
        simp only [py_bind_ok]
        rw [ih]
        cases hds : runContribs contrib rest <;> simp [applyDeltas]

theorem runContribs_ok_mem {contrib : Fields → Py (Option ℝ)} :
    ∀ {c : DocumentCollection} {ds : List (String × ℝ)},
      runContribs contrib c = .ok ds → ∀ {did : String} {doc : Fields},
        (did, doc) ∈ c → ∃ r, contrib doc = .ok r := by
  intro c
  induction c with
  | nil => intro ds _ did doc hmem; cases hmem
  | cons p rest ih =>
    intro ds h did doc hmem
    obtain ⟨did', doc'⟩ := p
    rw [runContribs] at h
    cases hr : contrib doc' with
    | error e => rw [hr] at h; exact absurd h.symm (py_ok_ne_error _ _)
    | ok r =>
      rw [hr] at h
      simp only [py_bind_ok] at h
      cases hds : runContribs contrib rest with
      | error e => rw [hds] at h; exact absurd h.symm (py_ok_ne_error _ _)
      | ok ds' =>
        rcases List.mem_cons.mp hmem with heq | hmem'
        · obtain ⟨h1, h2⟩ := Prod.mk.injEq .. ▸ heq
          exact ⟨r, h2 ▸ hr⟩
        · exact ih hds hmem'

theorem runContribs_ids {contrib : Fields → Py (Option ℝ)} :
    ∀ {c : DocumentCollection} {ds : List (String × ℝ)},
      runContribs contrib c = .ok ds → ∀ {e : String},
        e ∈ ds.map Prod.fst → e ∈ c.map Prod.fst := by
  intro c
  induction c with
  | nil =>
    intro ds h e hmem
    rw [runContribs] at h
    cases h
    cases hmem
  | cons p rest ih =>
    intro ds h e hmem
    obtain ⟨did', doc'⟩ := p
    rw [runContribs] at h
    cases hr : contrib doc' with
    | error er => rw [hr] at h; exact absurd h.symm (py_ok_ne_error _ _)
    | ok r =>
      rw [hr] at h
      simp only [py_bind_ok] at h
      cases hds : runContribs contrib rest with
      | error er => rw [hds] at h; exact absurd h.symm (py_ok_ne_error _ _)
      | ok ds' =>
        rw [hds] at h
        simp only [py_bind_ok] at h
        cases r with
        | none =>
          cases h
          exact List.mem_cons_of_mem _ (ih hds hmem)
        | some x =>
          cases h
          rcases List.mem_cons.mp hmem with heq | hmem'
          · exact heq ▸ List.mem_cons_self _ _
          · exact List.mem_cons_of_mem _ (ih hds hmem')

theorem sumDeltas_eq_zero_of_not_mem {ds : List (String × ℝ)} {e : String}
    (h : e ∉ ds.map Prod.fst) : sumDeltas ds e = 0 := by
  induction ds with
  | nil => rfl
  | cons p rest ih =>
    obtain ⟨d, x⟩ := p
    rw [sumDeltas_cons]
    have hd : d ≠ e := by
      intro hde
      exact h (hde ▸ List.mem_cons_self _ _)
    have he : e ∉ rest.map Prod.fst := by
      intro hmem
      exact h (List.mem_cons_of_mem _ hmem)
    rw [if_neg hd, ih he, zero_add]

theorem runContribs_sum {contrib : Fields → Py (Option ℝ)} :
    ∀ {c : DocumentCollection} {ds : List (String × ℝ)},
      runContribs contrib c = .ok ds → (c.map Prod.fst).Nodup →
      ∀ {did : String} {doc : Fields} {r : Option ℝ},
        (did, doc) ∈ c → contrib doc = .ok r →
        sumDeltas ds did = optVal r ∧
          (did ∈ ds.map Prod.fst ↔ ∃ x, r = some x) := by
  intro c
  induction c with
  | nil => intro ds _ _ did doc r hmem; cases hmem
  | cons p rest ih =>
    intro ds h hnd did doc r hmem hr
    obtain ⟨did', doc'⟩ := p
    rw [runContribs] at h
    cases hr' : contrib doc' with
    | error er => rw [hr'] at h; exact absurd h.symm (py_ok_ne_error _ _)
    | ok r' =>
      rw [hr'] at h
      simp only [py_bind_ok] at h
      cases hds : runContribs contrib rest with
      | error er => rw [hds] at h; exact absurd h.symm (py_ok_ne_error _ _)
      | ok ds' =>
        rw [hds] at h
        simp only [py_bind_ok] at h
        have hnd' : (rest.map Prod.fst).Nodup :=
          (List.nodup_cons.mp (by simpa using hnd)).2
        have hnotin : did' ∉ rest.map Prod.fst :=
          (List.nodup_cons.mp (by simpa using hnd)).1
        rcases List.mem_cons.mp hmem with heq | hmem'
        · have h1 : did = did' := congrArg Prod.fst heq
          have h2 : doc = doc' := congrArg Prod.snd heq
          have hrr : r = r' := by
            have := (h2 ▸ hr).symm.trans hr'
            exact Except.ok.inj this
          subst h1
          have hnotds' : did ∉ ds'.map Prod.fst := by
            intro hin
            exact hnotin (runContribs_ids hds hin)
          cases r with
          | some x =>
            rw [← hrr] at h
            cases h
            constructor
            · rw [sumDeltas_cons, if_pos rfl,
                sumDeltas_eq_zero_of_not_mem hnotds', add_zero]
              rfl
            · simp
          | none =>
            rw [← hrr] at h
            cases h
            constructor
            · rw [sumDeltas_eq_zero_of_not_mem hnotds']
              rfl
            · simp [hnotds']
        · have hne : did ≠ did' := by
            intro hde
            subst hde
            exact hnotin (List.mem_map_of_mem Prod.fst hmem')
          have := ih hds hnd' hmem' hr
          cases r' with
          | some x =>
            cases h
            constructor
            · rw [sumDeltas_cons, if_neg (fun hh => hne hh.symm), zero_add]
              exact this.1
            · rw [List.map_cons]
              rw [List.mem_cons]
              constructor
              · intro hh
                rcases hh with hh | hh
                · exact absurd hh hne
                · exact this.2.mp hh
              · intro hh
                exact Or.inr (this.2.mpr hh)
          | none =>
            cases h
            exact this

theorem runContribs_mem_of_some {contrib : Fields → Py (Option ℝ)} :
    ∀ {c : DocumentCollection} {ds : List (String × ℝ)},
      runContribs contrib c = .ok ds → ∀ {did : String} {doc : Fields} {x : ℝ},
        (did, doc) ∈ c → contrib doc = .ok (some x) →
        did ∈ ds.map Prod.fst := by
  intro c
  induction c with
  | nil => intro ds _ did doc x hmem; cases hmem
  | cons p rest ih =>
    intro ds h did doc x hmem hr
    obtain ⟨did', doc'⟩ := p
    rw [runContribs] at h
    cases hr' : contrib doc' with
    | error er => rw [hr'] at h; exact absurd h.symm (py_ok_ne_error _ _)
    | ok r' =>
      rw [hr'] at h
      simp only [py_bind_ok] at h
      cases hds : runContribs contrib rest with
      | error er => rw [hds] at h; exact absurd h.symm (py_ok_ne_error _ _)
      | ok ds' =>
        rw [hds] at h
        simp only [py_bind_ok] at h
        rcases List.mem_cons.mp hmem with heq | hmem'
        · have h1 : did = did' := congrArg Prod.fst heq
          have h2 : doc = doc' := congrArg Prod.snd heq
          have hrr : r' = some x := by
            have := (h2 ▸ hr).symm.trans hr'
            exact (Except.ok.inj this).symm
          subst hrr
          cases h
          exact h1 ▸ List.mem_cons_self _ _
        · cases r' with
          | some y =>
            cases h
            exact List.mem_cons_of_mem _ (ih hds hmem' hr)
          | none =>
            cases h
            exact ih hds hmem' hr

theorem runContribs_rel {cF cB : Fields → Py (Option ℝ)} {k : ℝ}
    (hrel : ∀ doc rF rB, cF doc = .ok rF → cB doc = .ok rB →
      optVal rF = optVal rB * k) :
    ∀ {c : DocumentCollection} {dsF dsB : List (String × ℝ)},
      runContribs cF c = .ok dsF → runContribs cB c = .ok dsB →
      ∀ e, sumDeltas dsF e = sumDeltas dsB e * k := by
  intro c
  induction c with
  | nil =>
    intro dsF dsB hF hB e
    rw [runContribs] at hF hB
    cases hF
    cases hB
    simp
  | cons p rest ih =>
    intro dsF dsB hF hB e
    obtain ⟨did', doc'⟩ := p
    rw [runContribs] at hF hB
    cases hrF : cF doc' with
    | error er => rw [hrF] at hF; exact absurd hF.symm (py_ok_ne_error _ _)
    | ok rF =>
      cases hrB : cB doc' with
      | error er => rw [hrB] at hB; exact absurd hB.symm (py_ok_ne_error _ _)
      | ok rB =>
        rw [hrF] at hF
        rw [hrB] at hB
        simp only [py_bind_ok] at hF hB
        cases hdsF : runContribs cF rest with
        | error er => rw [hdsF] at hF; exact absurd hF.symm (py_ok_ne_error _ _)
        | ok dsF' =>
          cases hdsB : runContribs cB rest with
          | error er =>
            rw [hdsB] at hB; exact absurd hB.symm (py_ok_ne_error _ _)
          | ok dsB' =>
            rw [hdsF] at hF
            rw [hdsB] at hB
            simp only [py_bind_ok] at hF hB
            have hv := hrel doc' rF rB hrF hrB
            have hih := ih hdsF hdsB e
            cases rF with
            | some xF =>
              cases rB with
              | some xB =>
                cases hF
                cases hB
                rw [sumDeltas_cons, sumDeltas_cons]
                have hxFB : xF = xB * k := hv
                by_cases hde : did' = e
                · rw [if_pos hde, if_pos hde, hxFB, hih]
                  ring
                · rw [if_neg hde, if_neg hde, hih]
                  ring
              | none =>
                cases hF
                cases hB
                rw [sumDeltas_cons]
                have hxF : xF = 0 := by
                  have : xF = 0 * k := hv
                  simpa using this
                by_cases hde : did' = e
                · rw [if_pos hde, hxF, zero_add]
                  exact hih
                · rw [if_neg hde, zero_add]
                  exact hih
            | none =>
              cases rB with
              | some xB =>
                cases hF
                cases hB
                rw [sumDeltas_cons]
                have hxB : (0 : ℝ) = xB * k := hv
                by_cases hde : did' = e
                · rw [if_pos hde, add_mul, ← hxB, zero_add]
                  exact hih
                · rw [if_neg hde, zero_add]
                  exact hih
              | none =>
                cases hF
                cases hB
                exact hih

theorem forEachDoc_error_of_contrib_error {c : DocumentCollection}
    {contrib : Fields → Py (Option ℝ)} {did : String} {doc : Fields}
    {e : PyErr} (hmem : (did, doc) ∈ c) (he : contrib doc = .error e) :
    ∀ s, ∃ e', forEachDoc c s contrib = .error e' := by
  induction c with
  | nil => cases hmem
  | cons p rest ih =>
    intro s
    obtain ⟨did', doc'⟩ := p
    cases hr : contrib doc' with
    | error er =>
      refine ⟨er, ?_⟩
      show (do
          match ← contrib doc' with
          | some x => forEachDoc rest (addScore s did' x) contrib
          | none => forEachDoc rest s contrib) = _
      rw [hr]
      rfl
    | ok r =>
      rcases List.mem_cons.mp hmem with heq | hmem'
      · have h2 : doc = doc' := congrArg Prod.snd heq
        rw [h2, hr] at he
        exact absurd he (py_ok_ne_error _ _)
      · have hstep : ∀ s', forEachDoc ((did', doc') :: rest) s' contrib =
            (match r with
              | some x => forEachDoc rest (addScore s' did' x) contrib
              | none => forEachDoc rest s' contrib) := by
          intro s'
          show (do
              match ← contrib doc' with
              | some x => forEachDoc rest (addScore s' did' x) contrib
              | none => forEachDoc rest s' contrib) = _
          simp only [hr, py_bind_ok]
          cases r <;> rfl
        cases r with
        | some x =>
          obtain ⟨e', he'⟩ := ih hmem' (addScore s did' x)
          exact ⟨e', (hstep s).trans he'⟩
        | none =>
          obtain ⟨e', he'⟩ := ih hmem' s
          exact ⟨e', (hstep s).trans he'⟩

theorem fieldSeqs_keyError {c : DocumentCollection} {field : String}
    {did : String} {doc : Fields} (hmem : (did, doc) ∈ c)
    (he : pyGetField doc field = .error .keyError) :
    fieldSeqs c field = .error .keyError := by
  induction c with
  | nil => cases hmem
  | cons p rest ih =>
    obtain ⟨did', doc'⟩ := p
    rw [fieldSeqs]
    cases hr : pyGetField doc' field with
    | error er =>
      have her : er = .keyError := by
        unfold pyGetField at hr
        cases hfind : doc'.find? (fun p => p.1 == field) with
        | none => rw [hfind] at hr; exact (Except.error.inj hr).symm
        | some q => rw [hfind] at hr; exact absurd hr (py_ok_ne_error _ _)
      rw [her]
      rfl
    | ok ts =>
      rcases List.mem_cons.mp hmem with heq | hmem'
      · have h2 : doc = doc' := congrArg Prod.snd heq
        rw [h2, hr] at he
        exact absurd he (py_ok_ne_error _ _)
      · simp only [py_bind_ok]
        rw [ih hmem']
        rfl

theorem counter_nil : counter [] = [] := by
  simp [counter, firstOccurrences]

theorem counter_cons (t : String) (ts : List String) :
    counter (t :: ts) = (t, countTerm (t :: ts) t) ::
      (firstOccurrences (ts.filter (fun u => u != t))).map
        (fun u => (u, countTerm (t :: ts) u)) := by
  conv_lhs => rw [counter, firstOccurrences]
  rw [List.map_cons]

theorem counter_pair {t1 t2 : String} (hne : t1 ≠ t2) :
    counter [t1, t2] = [(t1, 1), (t2, 1)] := by
  have h21 : (t2 == t1) = false := by
    simp [Ne.symm hne]
  have h12 : (t1 == t2) = false := by
    simp [hne]
  rw [counter]
  have hfo : firstOccurrences [t1, t2] = [t1, t2] := by
    rw [firstOccurrences]
    simp only [List.filter, bne, h21, Bool.not_false]
    rw [firstOccurrences]
    simp only [List.filter]
    rw [firstOccurrences]
  rw [hfo]
  simp [countTerm, List.filter, h12, h21]

theorem counter_single (t : String) : counter [t] = [(t, 1)] := by
  rw [counter]
  have hfo : firstOccurrences [t] = [t] := by
    rw [firstOccurrences]
    simp only [List.filter]
    rw [firstOccurrences]
  rw [hfo]
  simp [countTerm, List.filter]

theorem foldlM_error {f : Scores → (String × Nat) → Py Scores}
    {p : String × Nat} {l : List (String × Nat)} {s : Scores} {e : PyErr}
    (h : f s p = .error e) :
    List.foldlM f s (p :: l) = .error e := by
  rw [List.foldlM_cons, h]
  rfl

theorem foldlM_cons_ok {f : Scores → (String × Nat) → Py Scores}
    {p : String × Nat} {l : List (String × Nat)} {s s' : Scores}
    (h : f s p = .ok s') :
    List.foldlM f s (p :: l) = List.foldlM f s' l := by
  rw [List.foldlM_cons, h]
  rfl

/-! ### Claim theorems -/

theorem runScorer_nil (st : String → Nat → Scores → Py Scores) :
    runScorer st [] = .ok [] := by
  rw [runScorer, counter_nil]
  rfl

theorem total_ok_of_all_fields {c : DocumentCollection} {field : String}
    (h : ∀ p ∈ c, ∃ ts, pyGetField p.2 field = .ok ts) :
    DocumentCollection.total_field_length c field =
      .ok ((c.map (fun p => docFieldLen p.2 field)).sum) := by
  induction c with
  | nil => rfl
  | cons p rest ih =>
    obtain ⟨ts, hts⟩ := h p (List.mem_cons_self _ _)
    have hrest := ih (fun q hq => h q (List.mem_cons_of_mem _ hq))
    rw [DocumentCollection.total_field_length] at hrest ⊢
    rw [fieldSeqs, hts]
    simp only [py_bind_ok]
    cases hseqs : fieldSeqs rest field with
    | error e =>
      rw [hseqs] at hrest
      simp only [py_map_error] at hrest
      exact Except.noConfusion hrest
    | ok seqs =>
      rw [hseqs] at hrest
      simp only [py_map_ok] at hrest
      have hsum := Except.ok.inj hrest
      simp only [py_bind_ok, py_map_ok]
      have hdoc : docFieldLen p.2 field = ts.length := by
        simp [docFieldLen, hts]
      rw [List.map_cons, List.sum_cons, hsum, List.map_cons, List.sum_cons,
        hdoc]

/-- C7: `avg_field_length` on an empty collection fails with a
division-by-zero-class error (not NaN/inf/0); on a non-empty collection it
returns `total_field_length(field) / number_of_documents`. -/
theorem C7_avg_field_length (c : DocumentCollection) (field : String)
    (t : Nat) (hne : c ≠ [])
    (ht : DocumentCollection.total_field_length c field = .ok t) :
    DocumentCollection.avg_field_length [] field
        = .error .zeroDivisionError ∧
      DocumentCollection.avg_field_length c field
        = .ok ((t : ℝ) / (c.length : ℝ)) := by
  constructor
  · rw [DocumentCollection.avg_field_length]
    rw [show DocumentCollection.total_field_length [] field = .ok 0 from rfl]
    simp [pyDiv]
  · rw [DocumentCollection.avg_field_length, ht]
    simp only [py_bind_ok]
    rw [pyDiv, if_neg]
    intro hzero
    have : c.length = 0 := by exact_mod_cast hzero
    exact hne (List.length_eq_zero.mp this)

/-- C7 witness: a concrete one-document collection. -/
theorem C7_avg_field_length_witness :
    DocumentCollection.avg_field_length
        [("d1", [("body", ["x", "y"])])] "body" = .ok ((2 : ℝ) / (1 : ℝ)) := by
  have h := (C7_avg_field_length [("d1", [("body", ["x", "y"])])] "body" 2
    (by decide) (by decide)).2
  simpa using h

/-- C5 counterexample: on a collection whose document lacks the requested
field, `total_field_length` raises `KeyError` instead of letting the document
contribute 0 to the sum (the claim would require the result `.ok 0`). -/
theorem C5_counterexample :
    DocumentCollection.total_field_length
        [("d1", [("title", ["x"])])] "body" = .error .keyError ∧
      DocumentCollection.total_field_length
        [("d1", [("title", ["x"])])] "body" ≠ .ok 0 := by
  constructor
  · decide
  · decide

/-- C5 (amended): `total_field_length(field)` returns the sum of the field's
term-sequence lengths over all documents when every document has the field;
a document lacking the field makes the call fail with `KeyError` (it does not
contribute 0). -/
theorem C5_total_field_length (c : DocumentCollection) (field : String) :
    ((∀ p ∈ c, (pyGetField p.2 field).isOk = true) →
      DocumentCollection.total_field_length c field =
        .ok ((c.map (fun p => docFieldLen p.2 field)).sum)) ∧
    (∀ did doc, (did, doc) ∈ c → pyGetField doc field = .error .keyError →
      DocumentCollection.total_field_length c field = .error .keyError) := by
  constructor
  · intro h
    refine total_ok_of_all_fields (fun p hp => ?_)
    have := h p hp
    cases hg : pyGetField p.2 field with
    | ok ts => exact ⟨ts, rfl⟩
    | error e =>
      rw [hg] at this
      simp [Except.isOk, Except.toBool] at this
  · intro did doc hmem he
    rw [DocumentCollection.total_field_length, fieldSeqs_keyError hmem he]
    rfl

/-- C5 witness: concrete collections for both halves of the amended claim. -/
theorem C5_total_field_length_witness :
    DocumentCollection.total_field_length
        [("d1", [("body", ["a", "b"])]), ("d2", [("body", ["c"])])] "body"
        = .ok 3 ∧
      DocumentCollection.total_field_length
        [("d1", [("body", ["a"])]), ("d2", [("title", ["c"])])] "body"
        = .error .keyError := by
  constructor
  · have := (C5_total_field_length
      [("d1", [("body", ["a", "b"])]), ("d2", [("body", ["c"])])] "body").1
      (by decide)
    exact this.trans (by decide)
  · exact (C5_total_field_length
      [("d1", [("body", ["a"])]), ("d2", [("title", ["c"])])] "body").2
      "d2" [("title", ["c"])] (by decide) (by decide)

/-- C8: every ranking-model variant, given an empty query, succeeds and
returns the empty score mapping, for every collection, index and parameters. -/
theorem C8_empty_query (c : DocumentCollection) (idx : Index) (field : String)
    (b k1 lam : ℝ) (fields : List String) (ws bi : List ℝ) (k1' lam' : ℝ) :
    SimpleScorer.score_collection c field [] = .ok [] ∧
    ScorerBM25.score_collection c idx field b k1 [] = .ok [] ∧
    ScorerLM.score_collection c field lam [] = .ok [] ∧
    ScorerBM25F.score_collection c idx fields ws bi k1' [] = .ok [] ∧
    ScorerMLM.score_collection c fields ws lam' [] = .ok [] :=
  ⟨runScorer_nil _, runScorer_nil _, runScorer_nil _, runScorer_nil _,
    runScorer_nil _⟩

/-- C1: for every document whose configured field contains the term,
`ScorerBM25.score_term` adds exactly
`(tf * (1 + k1) / (tf + k1 * (1 - b + b * (field_length / avg_field_length))))
  * ln(|collection| / |{docs with term in field}|)`
to that document's score, with the document-frequency set looked up in the
Index; the query frequency plays no role in the contribution. -/
theorem C1_bm25_contribution
    (c : DocumentCollection) (idx : Index) (field : String) (b k1 : ℝ)
    (term : String) (query_freq : Nat) (s s' : Scores)
    (hnd : (c.map Prod.fst).Nodup)
    (did : String) (doc : Fields) (terms postings : List String) (A : ℝ)
    (hmem : (did, doc) ∈ c)
    (hfield : pyGetField doc field = .ok terms)
    (hterm : term ∈ terms)
    (hidx : idxGet idx field term = .ok postings)
    (havg : DocumentCollection.avg_field_length c field = .ok A)
    (hok : ScorerBM25.score_term c idx field b k1 term query_freq s = .ok s') :
    getScore s' did = getScore s did +
      ((countTerm terms term : ℝ) * (1 + k1) /
          ((countTerm terms term : ℝ) +
            k1 * (1 - b + b * ((terms.length : ℝ) / A)))) *
        Real.log ((c.length : ℝ) / (postings.length : ℝ)) := by
  rw [ScorerBM25.score_term, forEachDoc_eq] at hok
  cases hds : runContribs (ScorerBM25.contrib c idx field b k1 term) c with
  | error e =>
    rw [hds] at hok
    simp only [py_map_error] at hok
    exact Except.noConfusion hok
  | ok ds =>
    rw [hds] at hok
    simp only [py_map_ok] at hok
    have hs' : s' = applyDeltas s ds := (Except.ok.inj hok).symm
    obtain ⟨r, hr0⟩ := runContribs_ok_mem hds hmem
    have hr := hr0
    rw [ScorerBM25.contrib, hfield] at hr
    simp only [py_bind_ok] at hr
    rw [if_pos hterm, hidx] at hr
    simp only [py_bind_ok] at hr
    rw [pyDiv] at hr
    by_cases hplen : ((postings.length : Nat) : ℝ) = 0
    · rw [if_pos hplen] at hr
      simp only [py_bind_error] at hr
      exact Except.noConfusion hr
    rw [if_neg hplen] at hr
    simp only [py_bind_ok] at hr
    rw [pyLog] at hr
    by_cases hpos : (0 : ℝ) < ((c.length : Nat) : ℝ) / ((postings.length : Nat) : ℝ)
    swap
    · rw [if_neg hpos] at hr
      simp only [py_bind_error] at hr
      exact Except.noConfusion hr
    rw [if_pos hpos] at hr
    simp only [py_bind_ok] at hr
    rw [havg] at hr
    simp only [py_bind_ok] at hr
    rw [pyDiv] at hr
    by_cases hA : A = 0
    · rw [if_pos hA] at hr
      simp only [py_bind_error] at hr
      exact Except.noConfusion hr
    rw [if_neg hA] at hr
    simp only [py_bind_ok] at hr
    rw [pyDiv] at hr
    by_cases hden : ((countTerm terms term : ℕ) : ℝ) +
        k1 * (1 - b + b * ((terms.length : ℕ) : ℝ) / A) = 0
    · rw [if_pos hden] at hr
      simp only [py_bind_error] at hr
      exact Except.noConfusion hr
    rw [if_neg hden] at hr
    simp only [py_bind_ok, py_pure_eq_ok] at hr
    have hrv : r = some
        (((countTerm terms term : ℕ) : ℝ) * (1 + k1) /
            (((countTerm terms term : ℕ) : ℝ) +
              k1 * (1 - b + b * ((terms.length : ℕ) : ℝ) / A)) *
          Real.log (((c.length : Nat) : ℝ) / ((postings.length : Nat) : ℝ))) :=
      (Except.ok.inj hr).symm
    have hsum := (runContribs_sum hds hnd hmem hr0).1
    rw [hrv] at hsum
    rw [hs', getScore_applyDeltas, hsum, optVal]
    rw [Option.getD_some]
    rw [mul_div_assoc b]

theorem lookupScore_addScore_ne (s : Scores) (d : String) (x : ℝ)
    (e : String) (hne : e ≠ d) :
    lookupScore (addScore s d x) e = lookupScore s e := by
  induction s with
  | nil =>
    have hdne : (d == e) = false := by
      simp
      exact fun h => hne h.symm
    rw [addScore_nil, lookupScore_cons, lookupScore_nil,
      if_neg (by simp [hdne])]
  | cons p rest ih =>
    rw [addScore_cons]
    cases hpd : p.1 == d
    · rw [if_neg (by simp [hpd])]
      rw [lookupScore_cons, lookupScore_cons]
      cases hpe : p.1 == e
      · rw [if_neg (by simp [hpe]), if_neg (by simp [hpe])]
        exact ih
      · rw [if_pos rfl, if_pos rfl]
    · rw [if_pos rfl]
      have hpd' : p.1 = d := eq_of_beq hpd
      have hpe : (p.1 == e) = false := by
        rw [hpd']
        simp
        exact fun h => hne h.symm
      rw [lookupScore_cons, lookupScore_cons]
      simp only [hpe]
      rw [if_neg (by simp), if_neg (by simp)]

theorem lookupScore_applyDeltas_not_mem (ds : List (String × ℝ)) (s : Scores)
    (e : String) (h : e ∉ ds.map Prod.fst) :
    lookupScore (applyDeltas s ds) e = lookupScore s e := by
  induction ds generalizing s with
  | nil => rfl
  | cons p rest ih =>
    obtain ⟨d, x⟩ := p
    rw [applyDeltas]
    have hd : e ≠ d := by
      intro hde
      exact h (hde ▸ List.mem_cons_self _ _)
    have he : e ∉ rest.map Prod.fst := by
      intro hmem
      exact h (List.mem_cons_of_mem _ hmem)
    rw [ih _ he, lookupScore_addScore_ne _ _ _ _ hd]

/-- C1 witness: a concrete two-document collection where the BM25 term
contribution for `d1` evaluates to `ln 2`. -/
theorem C1_bm25_contribution_witness :
    ScorerBM25.score_term
        [("d1", [("body", ["a"])]), ("d2", [("body", ["b"])])]
        [("body", [("a", ["d1"]), ("b", ["d2"])])]
        "body" (3 / 4 : ℝ) (6 / 5) "a" 1 [] = .ok [("d1", Real.log 2)] ∧
      getScore [("d1", Real.log 2)] "d1" = getScore ([] : Scores) "d1" +
        ((countTerm ["a"] "a" : ℝ) * (1 + 6 / 5) /
            ((countTerm ["a"] "a" : ℝ) +
              (6 / 5) * (1 - 3 / 4 +
                (3 / 4 : ℝ) * (((["a"] : List String).length : ℝ) / 1)))) *
          Real.log
            ((([("d1", [("body", ["a"])]), ("d2", [("body", ["b"])])] :
                DocumentCollection).length : ℝ) /
              ((["d1"] : List String).length : ℝ)) := by
  have heval : ScorerBM25.score_term
      [("d1", [("body", ["a"])]), ("d2", [("body", ["b"])])]
      [("body", [("a", ["d1"]), ("b", ["d2"])])]
      "body" (3 / 4 : ℝ) (6 / 5) "a" 1 [] = .ok [("d1", Real.log 2)] := by
    simp +decide [ScorerBM25.score_term, ScorerBM25.contrib, forEachDoc,
      pyGetField, pyDiv, pyLog, idxGet, DocumentCollection.avg_field_length,
      DocumentCollection.total_field_length, fieldSeqs, countTerm, addScore,
      List.find?, List.filter]
    norm_num
  have havg : DocumentCollection.avg_field_length
      [("d1", [("body", ["a"])]), ("d2", [("body", ["b"])])] "body"
      = .ok 1 := by
    simp +decide [DocumentCollection.avg_field_length,
      DocumentCollection.total_field_length, fieldSeqs, pyGetField, pyDiv,
      List.find?]
    try norm_num
  refine ⟨heval, ?_⟩
  exact C1_bm25_contribution
    [("d1", [("body", ["a"])]), ("d2", [("body", ["b"])])]
    [("body", [("a", ["d1"]), ("b", ["d2"])])]
    "body" (3 / 4) (6 / 5) "a" 1 [] [("d1", Real.log 2)]
    (by decide) "d1" [("body", ["a"])] ["a"] ["d1"] 1
    (by decide) (by decide) (by decide) (by decide) havg heval

/-- C4: `SimpleScorer` adds `count(term in field) * query_frequency` to every
document containing the term, leaves documents without the term untouched,
and on the concrete scenario of the spec returns `{d1: 4}` with `d2` absent. -/
theorem C4_simple_scorer
    (c : DocumentCollection) (field term : String) (query_freq : Nat)
    (s s' : Scores) (hnd : (c.map Prod.fst).Nodup)
    (hok : SimpleScorer.score_term c field term query_freq s = .ok s') :
    (∀ did doc terms, (did, doc) ∈ c →
        pyGetField doc field = .ok terms → term ∈ terms →
        getScore s' did = getScore s did +
          (countTerm terms term : ℝ) * (query_freq : ℝ)) ∧
    (∀ did doc terms, (did, doc) ∈ c →
        pyGetField doc field = .ok terms → term ∉ terms →
        lookupScore s' did = lookupScore s did) ∧
    SimpleScorer.score_collection
        [("d1", [("body", ["a", "b", "a"])]), ("d2", [("body", ["b", "b"])])]
        "body" ["a", "a"] = .ok [("d1", 4)] := by
  rw [SimpleScorer.score_term, forEachDoc_eq] at hok
  cases hds : runContribs (SimpleScorer.contrib field term query_freq) c with
  | error e =>
    rw [hds] at hok
    simp only [py_map_error] at hok
    exact Except.noConfusion hok
  | ok ds =>
    rw [hds] at hok
    simp only [py_map_ok] at hok
    have hs' : s' = applyDeltas s ds := (Except.ok.inj hok).symm
    refine ⟨?_, ?_, ?_⟩
    · intro did doc terms hmem hfield hterm
      obtain ⟨r, hr0⟩ := runContribs_ok_mem hds hmem
      have hr := hr0
      rw [SimpleScorer.contrib, hfield] at hr
      simp only [py_bind_ok] at hr
      rw [if_pos hterm] at hr
      simp only [py_pure_eq_ok] at hr
      have hrv : r = some ((countTerm terms term * query_freq : Nat) : ℝ) :=
        (Except.ok.inj hr).symm
      have hsum := (runContribs_sum hds hnd hmem hr0).1
      rw [hrv] at hsum
      rw [hs', getScore_applyDeltas, hsum, optVal, Option.getD_some]
      push_cast
      ring
    · intro did doc terms hmem hfield hterm
      obtain ⟨r, hr0⟩ := runContribs_ok_mem hds hmem
      have hr := hr0
      rw [SimpleScorer.contrib, hfield] at hr
      simp only [py_bind_ok] at hr
      rw [if_neg hterm] at hr
      simp only [py_pure_eq_ok] at hr
      have hrv : r = none := (Except.ok.inj hr).symm
      have hnot := (runContribs_sum hds hnd hmem hr0).2
      rw [hrv] at hnot
      have hnotin : did ∉ ds.map Prod.fst := by
        intro hin
        obtain ⟨x, hx⟩ := hnot.mp hin
        exact Option.noConfusion hx
      rw [hs', lookupScore_applyDeltas_not_mem _ _ _ hnotin]
    · simp +decide [SimpleScorer.score_collection, runScorer, counter,
        firstOccurrences, SimpleScorer.score_term, SimpleScorer.contrib,
        forEachDoc, pyGetField, countTerm, addScore, List.find?, List.filter,
        List.foldlM]
      try norm_num

/-- C4 witness: the general contribution clause applied to the concrete
scenario (`d1` holds the term twice, the query holds it twice: delta 4). -/
theorem C4_simple_scorer_witness :
    SimpleScorer.score_term
        [("d1", [("body", ["a", "b", "a"])]), ("d2", [("body", ["b", "b"])])]
        "body" "a" 2 [] = .ok [("d1", 4)] ∧
      getScore [("d1", (4 : ℝ))] "d1" = getScore ([] : Scores) "d1" +
        (countTerm ["a", "b", "a"] "a" : ℝ) * ((2 : Nat) : ℝ) ∧
      lookupScore [("d1", (4 : ℝ))] "d2" = lookupScore ([] : Scores) "d2" := by
  have heval : SimpleScorer.score_term
      [("d1", [("body", ["a", "b", "a"])]), ("d2", [("body", ["b", "b"])])]
      "body" "a" 2 [] = .ok [("d1", 4)] := by
    simp +decide [SimpleScorer.score_term, SimpleScorer.contrib, forEachDoc,
      pyGetField, countTerm, addScore, List.find?, List.filter]
    try norm_num
  have h := C4_simple_scorer
    [("d1", [("body", ["a", "b", "a"])]), ("d2", [("body", ["b", "b"])])]
    "body" "a" 2 [] [("d1", 4)] (by decide) heval
  exact ⟨heval,
    h.1 "d1" [("body", ["a", "b", "a"])] ["a", "b", "a"]
      (by decide) (by decide) (by decide),
    h.2.1 "d2" [("body", ["b", "b"])] ["b", "b"]
      (by decide) (by decide) (by decide)⟩

theorem deltaForm_simple (c : DocumentCollection) (field : String) :
    DeltaForm (SimpleScorer.score_term c field) :=
  ⟨fun t qf => runContribs (SimpleScorer.contrib field t qf) c,
    fun t qf s => forEachDoc_eq c (SimpleScorer.contrib field t qf) s⟩

theorem deltaForm_bm25 (c : DocumentCollection) (idx : Index) (field : String)
    (b k1 : ℝ) : DeltaForm (ScorerBM25.score_term c idx field b k1) :=
  ⟨fun t qf => runContribs (ScorerBM25.contrib c idx field b k1 t) c,
    fun t qf s => forEachDoc_eq c (ScorerBM25.contrib c idx field b k1 t) s⟩

theorem deltaForm_lm (c : DocumentCollection) (field : String) (lam : ℝ) :
    DeltaForm (ScorerLM.score_term c field lam) := by
  refine ⟨fun t qf => do
    let P ← collectionProb c field t
    runContribs (ScorerLM.contrib field lam t qf P) c, fun t qf s => ?_⟩
  rw [ScorerLM.score_term]
  cases hP : collectionProb c field t with
  | error e => simp [hP]
  | ok P =>
    simp only [hP, py_bind_ok]
    exact forEachDoc_eq c (ScorerLM.contrib field lam t qf P) s

theorem deltaForm_bm25f (c : DocumentCollection) (idx : Index)
    (fields : List String) (ws bi : List ℝ) (k1 : ℝ) :
    DeltaForm (ScorerBM25F.score_term c idx fields ws bi k1) :=
  ⟨fun t qf => runContribs (ScorerBM25F.contrib c idx fields ws bi k1 t) c,
    fun t qf s =>
      forEachDoc_eq c (ScorerBM25F.contrib c idx fields ws bi k1 t) s⟩

theorem deltaForm_mlm (c : DocumentCollection) (fields : List String)
    (ws : List ℝ) (lam : ℝ) :
    DeltaForm (ScorerMLM.score_term c fields ws lam) :=
  ⟨fun t qf => runContribs (ScorerMLM.contrib c fields ws lam t) c,
    fun t qf s => forEachDoc_eq c (ScorerMLM.contrib c fields ws lam t) s⟩

theorem runScorer_pair_additive {st : String → Nat → Scores → Py Scores}
    (hD : DeltaForm st) {t1 t2 : String} (hne : t1 ≠ t2)
    {s12 s1 s2 : Scores}
    (h12 : runScorer st [t1, t2] = .ok s12)
    (h1 : runScorer st [t1] = .ok s1)
    (h2 : runScorer st [t2] = .ok s2) (d : String) :
    getScore s12 d = getScore s1 d + getScore s2 d := by
  obtain ⟨D, hDf⟩ := hD
  rw [runScorer, counter_pair hne] at h12
  rw [runScorer, counter_single] at h1
  rw [runScorer, counter_single] at h2
  rw [List.foldlM_cons] at h1 h2 h12
  rw [hDf] at h1 h2 h12
  cases hd1 : D t1 1 with
  | error e =>
    rw [hd1] at h1
    simp only [py_map_error, py_bind_error] at h1
    exact Except.noConfusion h1
  | ok ds1 =>
    cases hd2 : D t2 1 with
    | error e =>
      rw [hd2] at h2
      simp only [py_map_error, py_bind_error] at h2
      exact Except.noConfusion h2
    | ok ds2 =>
      rw [hd1] at h1 h12
      rw [hd2] at h2
      simp only [py_map_ok, py_bind_ok, List.foldlM_nil, py_pure_eq_ok]
        at h1 h2 h12
      rw [List.foldlM_cons, hDf, hd2] at h12
      simp only [py_map_ok, py_bind_ok, List.foldlM_nil, py_pure_eq_ok] at h12
      have e1 : s1 = applyDeltas [] ds1 := (Except.ok.inj h1).symm
      have e2 : s2 = applyDeltas [] ds2 := (Except.ok.inj h2).symm
      have e12 : s12 = applyDeltas (applyDeltas [] ds1) ds2 :=
        (Except.ok.inj h12).symm
      rw [e1, e2, e12]
      simp only [getScore_applyDeltas, getScore_nil]
      ring

/-- C9: for all five ranking models and distinct query terms `t1 ≠ t2`, the
score of every document under the query `[t1, t2]` is the sum of its scores
under `[t1]` and `[t2]` (absence from a mapping read as 0). -/
theorem C9_additivity (t1 t2 : String) (hne : t1 ≠ t2)
    (c : DocumentCollection) (idx : Index) (field : String)
    (b k1 lam : ℝ) (fields : List String) (ws bi : List ℝ) (k1' lam' : ℝ) :
    AdditivePair (SimpleScorer.score_collection c field) t1 t2 ∧
    AdditivePair (ScorerBM25.score_collection c idx field b k1) t1 t2 ∧
    AdditivePair (ScorerLM.score_collection c field lam) t1 t2 ∧
    AdditivePair (ScorerBM25F.score_collection c idx fields ws bi k1') t1 t2 ∧
    AdditivePair (ScorerMLM.score_collection c fields ws lam') t1 t2 :=
  ⟨fun _ _ _ h12 h1 h2 d =>
      runScorer_pair_additive (deltaForm_simple c field) hne h12 h1 h2 d,
    fun _ _ _ h12 h1 h2 d =>
      runScorer_pair_additive (deltaForm_bm25 c idx field b k1) hne h12 h1 h2 d,
    fun _ _ _ h12 h1 h2 d =>
      runScorer_pair_additive (deltaForm_lm c field lam) hne h12 h1 h2 d,
    fun _ _ _ h12 h1 h2 d =>
      runScorer_pair_additive (deltaForm_bm25f c idx fields ws bi k1') hne
        h12 h1 h2 d,
    fun _ _ _ h12 h1 h2 d =>
      runScorer_pair_additive (deltaForm_mlm c fields ws lam') hne
        h12 h1 h2 d⟩

/-- C9 witness: concrete additivity of `SimpleScorer` scores on the query
`["a", "b"]` against the single-document collection `{d1: {body: [a, b]}}`. -/
theorem C9_additivity_witness :
    SimpleScorer.score_collection [("d1", [("body", ["a", "b"])])] "body"
        ["a", "b"] = .ok [("d1", 2)] ∧
      SimpleScorer.score_collection [("d1", [("body", ["a", "b"])])] "body"
        ["a"] = .ok [("d1", 1)] ∧
      SimpleScorer.score_collection [("d1", [("body", ["a", "b"])])] "body"
        ["b"] = .ok [("d1", 1)] ∧
      getScore [("d1", (2 : ℝ))] "d1" =
        getScore [("d1", (1 : ℝ))] "d1" + getScore [("d1", (1 : ℝ))] "d1" := by
  have h12 : SimpleScorer.score_collection [("d1", [("body", ["a", "b"])])]
      "body" ["a", "b"] = .ok [("d1", 2)] := by
    simp +decide [SimpleScorer.score_collection, runScorer, counter,
      firstOccurrences, SimpleScorer.score_term, SimpleScorer.contrib,
      forEachDoc, pyGetField, countTerm, addScore, List.find?, List.filter,
      List.foldlM]
    try norm_num
  have h1 : SimpleScorer.score_collection [("d1", [("body", ["a", "b"])])]
      "body" ["a"] = .ok [("d1", 1)] := by
    simp +decide [SimpleScorer.score_collection, runScorer, counter,
      firstOccurrences, SimpleScorer.score_term, SimpleScorer.contrib,
      forEachDoc, pyGetField, countTerm, addScore, List.find?, List.filter,
      List.foldlM]
    try norm_num
  have h2 : SimpleScorer.score_collection [("d1", [("body", ["a", "b"])])]
      "body" ["b"] = .ok [("d1", 1)] := by
    simp +decide [SimpleScorer.score_collection, runScorer, counter,
      firstOccurrences, SimpleScorer.score_term, SimpleScorer.contrib,
      forEachDoc, pyGetField, countTerm, addScore, List.find?, List.filter,
      List.foldlM]
    try norm_num
  refine ⟨h12, h1, h2, ?_⟩
  exact (C9_additivity "a" "b" (by decide) [("d1", [("body", ["a", "b"])])]
    [] "body" 0 0 0 [] [] [] 0 0).1 _ _ _ h12 h1 h2 "d1"

/-- C6 counterexample: a document lacking the configured field `"title"`
makes `ScorerBM25F.score_term` fail with `KeyError` instead of letting the
missing field contribute 0 to the pseudo-frequency. -/
theorem C6_counterexample :
    ScorerBM25F.score_term [("d1", [("body", ["a"])])]
        [("body", [("a", ["d1"])])] ["title", "body"]
        [1 / 5, 4 / 5] [3 / 4, 3 / 4] (6 / 5) "a" 1 [] =
      .error .keyError := by
  simp +decide [ScorerBM25F.score_term, ScorerBM25F.contrib,
    ScorerBM25F.fieldLoop, forEachDoc, pyGetField, pyIdx, List.find?]

/-- C6 (amended): `ScorerBM25F.score_term` iterates over every document with
no "contains term" guard; whenever the call succeeds, every document of the
collection appears in the score mapping (with a possibly zero contribution) —
but a document lacking one of the configured fields makes the whole call fail
with a key-lookup error rather than contributing 0 for that field. -/
theorem C6_bm25f_every_document
    (c : DocumentCollection) (idx : Index) (fields : List String)
    (ws bi : List ℝ) (k1 : ℝ) (term : String) (query_freq : Nat)
    (s s' : Scores)
    (hok : ScorerBM25F.score_term c idx fields ws bi k1 term query_freq s
      = .ok s')
    (did : String) (doc : Fields) (hmem : (did, doc) ∈ c) :
    (lookupScore s' did).isSome = true := by
  rw [ScorerBM25F.score_term, forEachDoc_eq] at hok
  cases hds : runContribs (ScorerBM25F.contrib c idx fields ws bi k1 term) c
    with
  | error e =>
    rw [hds] at hok
    simp only [py_map_error] at hok
    exact Except.noConfusion hok
  | ok ds =>
    rw [hds] at hok
    simp only [py_map_ok] at hok
    have hs' : s' = applyDeltas s ds := (Except.ok.inj hok).symm
    obtain ⟨r, hr0⟩ := runContribs_ok_mem hds hmem
    have hr := hr0
    rw [ScorerBM25F.contrib] at hr
    cases hl : ScorerBM25F.fieldLoop c idx ws bi term doc fields 0 0 0 with
    | error e =>
      rw [hl] at hr
      simp only [py_bind_error] at hr
      exact Except.noConfusion hr
    | ok pr =>
      rw [hl] at hr
      simp only [py_bind_ok] at hr
      rw [pyDiv] at hr
      by_cases hz : k1 + pr.1 = 0
      · rw [if_pos hz] at hr
        simp only [py_bind_error] at hr
        exact Except.noConfusion hr
      rw [if_neg hz] at hr
      simp only [py_bind_ok, py_pure_eq_ok] at hr
      have hrv : r = some (pr.1 / (k1 + pr.1) * pr.2) :=
        (Except.ok.inj hr).symm
      have hin : did ∈ ds.map Prod.fst :=
        runContribs_mem_of_some hds hmem (hrv ▸ hr0)
      rw [hs', lookupScore_applyDeltas_isSome]
      have hany : ds.any (fun p => p.1 == did) = true := by
        rw [List.any_eq_true]
        obtain ⟨p, hp, hpd⟩ := List.mem_map.mp hin
        exact ⟨p, hp, by simp [hpd]⟩
      rw [hany, Bool.or_true]

/-- C6 witness: with both configured fields present everywhere, the call
succeeds and even `d2`, which lacks the term in all fields, appears in the
mapping (zero contribution). -/
theorem C6_bm25f_every_document_witness :
    ScorerBM25F.score_term
        [("d1", [("title", ["y"]), ("body", ["x"])]),
          ("d2", [("title", ["y"]), ("body", ["z"])])]
        [("body", [("x", ["d1"])])] ["title", "body"]
        [1 / 5, 4 / 5] [3 / 4, 3 / 4] (6 / 5) "x" 1 [] =
      .ok [("d1", 2 / 5 * Real.log 2), ("d2", 0)] ∧
      (lookupScore [("d1", 2 / 5 * Real.log 2), ("d2", (0 : ℝ))] "d2").isSome
        = true := by
  have heval : ScorerBM25F.score_term
      [("d1", [("title", ["y"]), ("body", ["x"])]),
        ("d2", [("title", ["y"]), ("body", ["z"])])]
      [("body", [("x", ["d1"])])] ["title", "body"]
      [1 / 5, 4 / 5] [3 / 4, 3 / 4] (6 / 5) "x" 1 [] =
      .ok [("d1", 2 / 5 * Real.log 2), ("d2", 0)] := by
    simp +decide [ScorerBM25F.score_term, ScorerBM25F.contrib,
      ScorerBM25F.fieldLoop, forEachDoc, pyGetField, pyIdx, pyDiv, pyLog,
      idxGet, DocumentCollection.avg_field_length,
      DocumentCollection.total_field_length, fieldSeqs, countTerm, addScore,
      List.find?, List.filter]
    try norm_num
  exact ⟨heval,
    C6_bm25f_every_document _ _ _ _ _ _ _ _ _ _ heval "d2"
      [("title", ["y"]), ("body", ["z"])] (by decide)⟩

theorem pyGetField_error_eq {doc : Fields} {field : String} {e : PyErr}
    (h : pyGetField doc field = .error e) : e = .keyError := by
  unfold pyGetField at h
  cases hfind : doc.find? (fun p => p.1 == field) with
  | none => rw [hfind] at h; exact (Except.error.inj h).symm
  | some q => rw [hfind] at h; exact absurd h (py_ok_ne_error _ _)

theorem forEachDoc_keyError {c : DocumentCollection}
    {contrib : Fields → Py (Option ℝ)} {did : String} {doc : Fields}
    (hmem : (did, doc) ∈ c) (hdoc : contrib doc = .error .keyError)
    (honly : ∀ doc' e, contrib doc' = .error e → e = PyErr.keyError) :
    ∀ s, forEachDoc c s contrib = .error .keyError := by
  induction c with
  | nil => cases hmem
  | cons p rest ih =>
    intro s
    obtain ⟨did', doc'⟩ := p
    show (do
        match ← contrib doc' with
        | some x => forEachDoc rest (addScore s did' x) contrib
        | none => forEachDoc rest s contrib) = _
    cases hr : contrib doc' with
    | error er =>
      have her := honly doc' er hr
      subst her
      rfl
    | ok r =>
      simp only [hr, py_bind_ok]
      rcases List.mem_cons.mp hmem with heq | hmem'
      · have h2 : doc = doc' := congrArg Prod.snd heq
        rw [h2, hr] at hdoc
        exact absurd hdoc (py_ok_ne_error _ _)
      · cases r with
        | some x => exact ih hmem' (addScore s did' x)
        | none => exact ih hmem' s

theorem simple_contrib_error_eq (field term : String) (qf : Nat) :
    ∀ doc' e, SimpleScorer.contrib field term qf doc' = .error e →
      e = PyErr.keyError := by
  intro doc' e h
  rw [SimpleScorer.contrib] at h
  cases hg : pyGetField doc' field with
  | error er =>
    rw [hg] at h
    simp only [py_bind_error] at h
    exact (pyGetField_error_eq hg) ▸ (Except.error.inj h).symm
  | ok terms =>
    rw [hg] at h
    simp only [py_bind_ok] at h
    by_cases ht : term ∈ terms
    · rw [if_pos ht] at h
      exact absurd h (py_ok_ne_error _ _)
    · rw [if_neg ht] at h
      exact absurd h (py_ok_ne_error _ _)

theorem simple_score_term_keyError {c : DocumentCollection} {field : String}
    {did : String} {doc : Fields} (hmem : (did, doc) ∈ c)
    (hmiss : pyGetField doc field = .error .keyError)
    (term : String) (qf : Nat) (s : Scores) :
    SimpleScorer.score_term c field term qf s = .error .keyError := by
  rw [SimpleScorer.score_term]
  refine forEachDoc_keyError hmem ?_ (simple_contrib_error_eq field term qf) s
  rw [SimpleScorer.contrib, hmiss]
  rfl

theorem lm_score_term_keyError {c : DocumentCollection} {field : String}
    {did : String} {doc : Fields} (hmem : (did, doc) ∈ c)
    (hmiss : pyGetField doc field = .error .keyError)
    (lam : ℝ) (term : String) (qf : Nat) (s : Scores) :
    ScorerLM.score_term c field lam term qf s = .error .keyError := by
  rw [ScorerLM.score_term]
  have hcp : collectionProb c field term = .error .keyError := by
    rw [collectionProb, fieldSeqs_keyError hmem hmiss]
    rfl
  rw [hcp]
  rfl

theorem bm25_contrib_keyError {c : DocumentCollection} {idx : Index}
    {field : String} {b k1 : ℝ} {term : String} {doc : Fields}
    (hmiss : pyGetField doc field = .error .keyError) :
    ScorerBM25.contrib c idx field b k1 term doc = .error .keyError := by
  rw [ScorerBM25.contrib, hmiss]
  rfl

/-- C10 counterexample: with an (inconsistent) empty posting set for a term
contained in an earlier document, `ScorerBM25.score_collection` on a
collection whose second document lacks the field fails with
`ZeroDivisionError`, not with the claimed key-lookup error. -/
theorem C10_counterexample :
    ScorerBM25.score_collection
        [("d1", [("body", ["a"])]), ("d2", [("title", ["b"])])]
        [("body", [("a", ([] : List String))])] "body" (3 / 4) (6 / 5) ["a"]
      = .error .zeroDivisionError ∧
      pyGetField [("title", ["b"])] "body" = .error .keyError ∧
      PyErr.zeroDivisionError ≠ PyErr.keyError := by
  refine ⟨?_, by decide, by decide⟩
  simp +decide [ScorerBM25.score_collection, runScorer, counter,
    firstOccurrences, ScorerBM25.score_term, ScorerBM25.contrib, forEachDoc,
    pyGetField, pyDiv, pyLog, idxGet, countTerm, addScore, List.find?,
    List.filter, List.foldlM]

/-- C10 (amended): if any document of the collection lacks the configured
field, then for every non-empty query `SimpleScorer` and `ScorerLM` fail with
an uncaught key-lookup error (even when the query term occurs in no document),
and `ScorerBM25` fails with some uncaught error (a key-lookup error unless an
earlier document triggers an arithmetic error first). -/
theorem C10_missing_field (c : DocumentCollection) (idx : Index)
    (field : String) (b k1 lam : ℝ) (q : List String)
    (did : String) (doc : Fields) (hmem : (did, doc) ∈ c)
    (hmiss : pyGetField doc field = .error .keyError) (hq : q ≠ []) :
    SimpleScorer.score_collection c field q = .error .keyError ∧
    ScorerLM.score_collection c field lam q = .error .keyError ∧
    ∃ e, ScorerBM25.score_collection c idx field b k1 q = .error e := by
  obtain ⟨t, ts, rfl⟩ := List.exists_cons_of_ne_nil hq
  refine ⟨?_, ?_, ?_⟩
  · rw [SimpleScorer.score_collection, runScorer, counter_cons]
    exact foldlM_error (simple_score_term_keyError hmem hmiss _ _ _)
  · rw [ScorerLM.score_collection, runScorer, counter_cons]
    exact foldlM_error (lm_score_term_keyError hmem hmiss _ _ _ _)
  · obtain ⟨e, he⟩ :=
      forEachDoc_error_of_contrib_error hmem (bm25_contrib_keyError hmiss) []
    refine ⟨e, ?_⟩
    rw [ScorerBM25.score_collection, runScorer, counter_cons]
    exact foldlM_error he

/-- C10 witness: concrete collection with `d2` lacking `"body"`; the query
term occurs in no document, yet all three single-field scorers fail. -/
theorem C10_missing_field_witness :
    SimpleScorer.score_collection
        [("d1", [("body", ["a"])]), ("d2", [("title", ["b"])])]
        "body" ["zzz"] = .error .keyError ∧
      ScorerLM.score_collection
        [("d1", [("body", ["a"])]), ("d2", [("title", ["b"])])]
        "body" (1 / 10) ["zzz"] = .error .keyError ∧
      ∃ e, ScorerBM25.score_collection
        [("d1", [("body", ["a"])]), ("d2", [("title", ["b"])])]
        [] "body" (3 / 4) (6 / 5) ["zzz"] = .error e :=
  C10_missing_field
    [("d1", [("body", ["a"])]), ("d2", [("title", ["b"])])]
    [] "body" (3 / 4) (6 / 5) (1 / 10) ["zzz"]
    "d2" [("title", ["b"])] (by decide) (by decide) (by decide)

theorem countTerm_eq_zero {terms : List String} {term : String}
    (h : term ∉ terms) : countTerm terms term = 0 := by
  rw [countTerm, List.length_eq_zero, List.filter_eq_nil_iff]
  intro u hu
  simp only [beq_iff_eq]
  intro he
  exact h (he ▸ hu)

/-- C3 counterexample: with a single field `"body"`, weight 1.0 and λ = 1/2,
the mixture model gives `d2` (which lacks the term) the score `ln(1/4)` while
the single-field LM leaves `d2` absent (score 0), so the mappings are not
numerically equal. -/
theorem C3_counterexample :
    ScorerMLM.score_collection
        [("d1", [("body", ["a"])]), ("d2", [("body", ["b"])])]
        ["body"] [1] (1 / 2) ["a"]
      = .ok [("d1", Real.log (3 / 4)), ("d2", Real.log (1 / 4))] ∧
      ScorerLM.score_collection
        [("d1", [("body", ["a"])]), ("d2", [("body", ["b"])])]
        "body" (1 / 2) ["a"] = .ok [("d1", Real.log (3 / 4))] ∧
      getScore [("d1", Real.log (3 / 4)), ("d2", Real.log (1 / 4))] "d2" ≠
        getScore [("d1", Real.log (3 / 4))] "d2" := by
  refine ⟨?_, ?_, ?_⟩
  · simp +decide [ScorerMLM.score_collection, runScorer, counter,
      firstOccurrences, ScorerMLM.score_term, ScorerMLM.contrib,
      ScorerMLM.fieldLoop, collectionProb, forEachDoc, pyGetField, pyIdx,
      pyDiv, pyLog, DocumentCollection.total_field_length, fieldSeqs,
      countTerm, addScore, List.find?, List.filter, List.foldlM]
    norm_num
    rw [show (1 / 4 : ℝ) = 4⁻¹ from by norm_num, Real.log_inv]
  · simp +decide [ScorerLM.score_collection, runScorer, counter,
      firstOccurrences, ScorerLM.score_term, ScorerLM.contrib,
      collectionProb, forEachDoc, pyGetField, pyDiv, pyLog,
      DocumentCollection.total_field_length, fieldSeqs, countTerm, addScore,
      List.find?, List.filter, List.foldlM]
    norm_num
  · simp +decide [getScore, lookupScore, List.find?]
    norm_num

/-- C3 (amended): with the single field `"body"` and weight 1.0, MLM agrees
with LM only on documents that contain the term and only for query frequency
1 (MLM ignores the query frequency): the per-document deltas coincide there;
a document not containing the term receives `ln(λ · P(t|C))` from MLM while
LM leaves it untouched (absent ⇒ 0). -/
theorem C3_mlm_vs_lm
    (c : DocumentCollection) (lam : ℝ) (term : String) (qfM : Nat)
    (sM sM' sL sL' : Scores) (P : ℝ)
    (hnd : (c.map Prod.fst).Nodup)
    (hP : collectionProb c "body" term = .ok P)
    (hM : ScorerMLM.score_term c ["body"] [1] lam term qfM sM = .ok sM')
    (hL : ScorerLM.score_term c "body" lam term 1 sL = .ok sL')
    (did : String) (doc : Fields) (terms : List String)
    (hmem : (did, doc) ∈ c)
    (hfield : pyGetField doc "body" = .ok terms) :
    (term ∈ terms →
      getScore sM' did - getScore sM did =
        getScore sL' did - getScore sL did) ∧
    (term ∉ terms →
      getScore sM' did - getScore sM did = Real.log (lam * P) ∧
      lookupScore sL' did = lookupScore sL did) := by
  rw [ScorerMLM.score_term, forEachDoc_eq] at hM
  rw [ScorerLM.score_term, hP] at hL
  simp only [py_bind_ok] at hL
  rw [forEachDoc_eq] at hL
  cases hdsM : runContribs (ScorerMLM.contrib c ["body"] [1] lam term) c with
  | error e =>
    rw [hdsM] at hM
    simp only [py_map_error] at hM
    exact Except.noConfusion hM
  | ok dsM =>
  cases hdsL : runContribs (ScorerLM.contrib "body" lam term 1 P) c with
  | error e =>
    rw [hdsL] at hL
    simp only [py_map_error] at hL
    exact Except.noConfusion hL
  | ok dsL =>
  rw [hdsM] at hM
  rw [hdsL] at hL
  simp only [py_map_ok] at hM hL
  have hsM' : sM' = applyDeltas sM dsM := (Except.ok.inj hM).symm
  have hsL' : sL' = applyDeltas sL dsL := (Except.ok.inj hL).symm
  obtain ⟨rM, hrM0⟩ := runContribs_ok_mem hdsM hmem
  obtain ⟨rL, hrL0⟩ := runContribs_ok_mem hdsL hmem
  have hrM := hrM0
  rw [ScorerMLM.contrib, ScorerMLM.fieldLoop] at hrM
  rw [show pyIdx [(1 : ℝ)] 0 = .ok 1 from rfl] at hrM
  simp only [py_bind_ok] at hrM
  rw [hfield] at hrM
  simp only [py_bind_ok] at hrM
  rw [pyDiv] at hrM
  split at hrM
  · simp only [py_bind_error] at hrM
    exact Except.noConfusion hrM
  simp only [py_bind_ok] at hrM
  rw [hP] at hrM
  simp only [py_bind_ok] at hrM
  rw [ScorerMLM.fieldLoop] at hrM
  simp only [py_bind_ok] at hrM
  rw [pyLog] at hrM
  split at hrM
  case isTrue hposM =>
    simp only [py_bind_ok, py_pure_eq_ok] at hrM
    have hrMv : rM = some (Real.log ((1 - lam) *
        (0 + 1 * ((countTerm terms term : ℝ) / (terms.length : ℝ))) +
          lam * (0 + 1 * P))) := (Except.ok.inj hrM).symm
    have hsumM := (runContribs_sum hdsM hnd hmem hrM0).1
    rw [hrMv] at hsumM
    have hdM : getScore sM' did - getScore sM did =
        Real.log ((1 - lam) *
          (0 + 1 * ((countTerm terms term : ℝ) / (terms.length : ℝ))) +
            lam * (0 + 1 * P)) := by
      rw [hsM', getScore_applyDeltas, hsumM, optVal, Option.getD_some]
      ring
    constructor
    · intro hterm
      have hrL := hrL0
      rw [ScorerLM.contrib, hfield] at hrL
      simp only [py_bind_ok] at hrL
      rw [if_pos hterm] at hrL
      rw [pyDiv] at hrL
      split at hrL
      · simp only [py_bind_error] at hrL
        exact Except.noConfusion hrL
      simp only [py_bind_ok] at hrL
      rw [pyLog] at hrL
      split at hrL
      case isTrue hposL =>
        simp only [py_bind_ok, py_pure_eq_ok] at hrL
        have hrLv : rL = some (((1 : Nat) : ℝ) * Real.log ((1 - lam) *
            ((countTerm terms term : ℝ) / (terms.length : ℝ)) + lam * P)) :=
          (Except.ok.inj hrL).symm
        have hsumL := (runContribs_sum hdsL hnd hmem hrL0).1
        rw [hrLv] at hsumL
        have hdL : getScore sL' did - getScore sL did =
            ((1 : Nat) : ℝ) * Real.log ((1 - lam) *
              ((countTerm terms term : ℝ) / (terms.length : ℝ)) + lam * P) := by
          rw [hsL', getScore_applyDeltas, hsumL, optVal, Option.getD_some]
          ring
        rw [hdM, hdL, Nat.cast_one, one_mul]
        ring_nf
      case isFalse hposL =>
        simp only [py_bind_error] at hrL
        exact Except.noConfusion hrL
    · intro hterm
      have hrL := hrL0
      rw [ScorerLM.contrib, hfield] at hrL
      simp only [py_bind_ok] at hrL
      rw [if_neg hterm] at hrL
      simp only [py_pure_eq_ok] at hrL
      have hrLv : rL = none := (Except.ok.inj hrL).symm
      have hnotL := (runContribs_sum hdsL hnd hmem hrL0).2
      rw [hrLv] at hnotL
      have hnotinL : did ∉ dsL.map Prod.fst := by
        intro hin
        obtain ⟨x, hx⟩ := hnotL.mp hin
        exact Option.noConfusion hx
      refine ⟨?_, by rw [hsL', lookupScore_applyDeltas_not_mem _ _ _ hnotinL]⟩
      rw [hdM, countTerm_eq_zero hterm]
      congr 1
      push_cast
      ring
  case isFalse hposM =>
    simp only [py_bind_error] at hrM
    exact Except.noConfusion hrM

/-- C3 witness: concrete two-document collection with λ = 1/2; MLM and LM
deltas agree on `d1` (which holds the term), and `d2` receives
`ln(λ · P(t|C))` from MLM while LM leaves it absent. -/
theorem C3_mlm_vs_lm_witness :
    ScorerMLM.score_term
        [("d1", [("body", ["a"])]), ("d2", [("body", ["b"])])]
        ["body"] [1] (1 / 2) "a" 1 [] =
      .ok [("d1", Real.log (3 / 4)), ("d2", Real.log (1 / 4))] ∧
      ScorerLM.score_term
        [("d1", [("body", ["a"])]), ("d2", [("body", ["b"])])]
        "body" (1 / 2) "a" 1 [] = .ok [("d1", Real.log (3 / 4))] ∧
      getScore [("d1", Real.log (3 / 4)), ("d2", Real.log (1 / 4))] "d1" -
          getScore ([] : Scores) "d1" =
        getScore [("d1", Real.log (3 / 4))] "d1" -
          getScore ([] : Scores) "d1" ∧
      getScore [("d1", Real.log (3 / 4)), ("d2", Real.log (1 / 4))] "d2" -
          getScore ([] : Scores) "d2" =
        Real.log ((1 / 2) * (1 / 2)) := by
  have hP : collectionProb
      [("d1", [("body", ["a"])]), ("d2", [("body", ["b"])])] "body" "a"
      = .ok (1 / 2) := by
    simp +decide [collectionProb, DocumentCollection.total_field_length,
      fieldSeqs, pyGetField, pyDiv, countTerm, List.find?, List.filter]
    try norm_num
  have hM : ScorerMLM.score_term
      [("d1", [("body", ["a"])]), ("d2", [("body", ["b"])])]
      ["body"] [1] (1 / 2) "a" 1 [] =
      .ok [("d1", Real.log (3 / 4)), ("d2", Real.log (1 / 4))] := by
    simp +decide [ScorerMLM.score_term, ScorerMLM.contrib,
      ScorerMLM.fieldLoop, collectionProb, forEachDoc, pyGetField, pyIdx,
      pyDiv, pyLog, DocumentCollection.total_field_length, fieldSeqs,
      countTerm, addScore, List.find?, List.filter]
    norm_num
    rw [show (1 / 4 : ℝ) = 4⁻¹ from by norm_num, Real.log_inv]
  have hL : ScorerLM.score_term
      [("d1", [("body", ["a"])]), ("d2", [("body", ["b"])])]
      "body" (1 / 2) "a" 1 [] = .ok [("d1", Real.log (3 / 4))] := by
    simp +decide [ScorerLM.score_term, ScorerLM.contrib, collectionProb,
      forEachDoc, pyGetField, pyDiv, pyLog,
      DocumentCollection.total_field_length, fieldSeqs, countTerm, addScore,
      List.find?, List.filter]
    norm_num
  have h1 := C3_mlm_vs_lm
    [("d1", [("body", ["a"])]), ("d2", [("body", ["b"])])]
    (1 / 2) "a" 1 [] [("d1", Real.log (3 / 4)), ("d2", Real.log (1 / 4))]
    [] [("d1", Real.log (3 / 4))] (1 / 2) (by decide) hP hM hL
    "d1" [("body", ["a"])] ["a"] (by decide) (by decide)
  have h2 := C3_mlm_vs_lm
    [("d1", [("body", ["a"])]), ("d2", [("body", ["b"])])]
    (1 / 2) "a" 1 [] [("d1", Real.log (3 / 4)), ("d2", Real.log (1 / 4))]
    [] [("d1", Real.log (3 / 4))] (1 / 2) (by decide) hP hM hL
    "d2" [("body", ["b"])] ["b"] (by decide) (by decide)
  exact ⟨hM, hL, h1.1 (by decide), (h2.2 (by decide)).1⟩

theorem foldScore_rel {stF stB : String → Nat → Scores → Py Scores} {k : ℝ}
    (hrel : ∀ t qf sF sB sF' sB', stF t qf sF = .ok sF' →
      stB t qf sB = .ok sB' →
      ∀ d, getScore sF' d - getScore sF d =
        (getScore sB' d - getScore sB d) * k) :
    ∀ (l : List (String × Nat)) (sF sB sF' sB' : Scores),
      l.foldlM (fun s p => stF p.1 p.2 s) sF = .ok sF' →
      l.foldlM (fun s p => stB p.1 p.2 s) sB = .ok sB' →
      (∀ d, getScore sF d = getScore sB d * k) →
      ∀ d, getScore sF' d = getScore sB' d * k := by
  intro l
  induction l with
  | nil =>
    intro sF sB sF' sB' hF hB hinv d
    rw [List.foldlM_nil] at hF hB
    have eF : sF = sF' := Except.ok.inj hF
    have eB : sB = sB' := Except.ok.inj hB
    rw [← eF, ← eB]
    exact hinv d
  | cons p rest ih =>
    intro sF sB sF' sB' hF hB hinv d
    rw [List.foldlM_cons] at hF hB
    cases h1 : stF p.1 p.2 sF with
    | error e =>
      rw [h1] at hF
      simp only [py_bind_error] at hF
      exact Except.noConfusion hF
    | ok s1 =>
      cases h2 : stB p.1 p.2 sB with
      | error e =>
        rw [h2] at hB
        simp only [py_bind_error] at hB
        exact Except.noConfusion hB
      | ok s2 =>
        rw [h1] at hF
        rw [h2] at hB
        simp only [py_bind_ok] at hF hB
        have hstep := hrel p.1 p.2 sF sB s1 s2 h1 h2
        have hinv' : ∀ e, getScore s1 e = getScore s2 e * k := by
          intro e
          have ha := hstep e
          have hb := hinv e
          have : getScore s1 e =
              getScore sF e + (getScore s2 e - getScore sB e) * k := by
            linarith
          rw [this, hb]
          ring
        exact ih s1 s2 sF' sB' hF hB hinv' d

theorem bm25_saturation_algebra (cnt B k1 L : ℝ) (hB : B ≠ 0)
    (hkc : k1 + (0 + 1 * (cnt / B)) ≠ 0) (hden : cnt + k1 * B ≠ 0)
    (hk : 1 + k1 ≠ 0) :
    (0 + 1 * (cnt / B)) / (k1 + (0 + 1 * (cnt / B))) * L =
      cnt * (1 + k1) / (cnt + k1 * B) * L * (1 + k1)⁻¹ := by
  rw [zero_add, one_mul] at hkc ⊢
  have hBmul : B * (k1 + cnt / B) = cnt + k1 * B := by
    rw [mul_add, mul_div_cancel₀ _ hB]
    ring
  have h1 : (cnt / B) / (k1 + cnt / B) = cnt / (cnt + k1 * B) := by
    rw [div_div, hBmul]
  rw [h1]
  rw [div_mul_eq_mul_div, div_mul_eq_mul_div, div_mul_eq_mul_div]
  congr 1
  have hx : cnt * (1 + k1) * L * (1 + k1)⁻¹ =
      cnt * L * ((1 + k1) * (1 + k1)⁻¹) := by ring
  rw [hx, mul_inv_cancel₀ hk, mul_one]

theorem bm25f_single_contrib_rel (c : DocumentCollection) (idx : Index)
    (b k1 : ℝ) (hk : 1 + k1 ≠ 0) (t : String) :
    ∀ doc rF rB,
      ScorerBM25F.contrib c idx ["body"] [1] [b] k1 t doc = .ok rF →
      ScorerBM25.contrib c idx "body" b k1 t doc = .ok rB →
      optVal rF = optVal rB * (1 + k1)⁻¹ := by
  intro doc rF rB hF hB
  rw [ScorerBM25F.contrib, ScorerBM25F.fieldLoop] at hF
  rw [show pyIdx [b] 0 = .ok b from rfl] at hF
  simp only [py_bind_ok] at hF
  rw [ScorerBM25.contrib] at hB
  cases hg : pyGetField doc "body" with
  | error e =>
    rw [hg] at hF
    simp only [py_bind_error] at hF
    exact Except.noConfusion hF
  | ok terms =>
  rw [hg] at hF hB
  simp only [py_bind_ok] at hF hB
  cases havg : DocumentCollection.avg_field_length c "body" with
  | error e =>
    rw [havg] at hF
    simp only [py_bind_error] at hF
    exact Except.noConfusion hF
  | ok A =>
  rw [havg] at hF
  simp only [py_bind_ok] at hF
  rw [pyDiv] at hF
  split at hF
  case isTrue =>
    simp only [py_bind_error] at hF
    exact Except.noConfusion hF
  case isFalse hA =>
  simp only [py_bind_ok] at hF
  rw [show pyIdx [(1 : ℝ)] 0 = .ok 1 from rfl] at hF
  simp only [py_bind_ok] at hF
  rw [pyDiv] at hF
  split at hF
  case isTrue =>
    simp only [py_bind_error] at hF
    exact Except.noConfusion hF
  case isFalse hBne =>
  simp only [py_bind_ok] at hF
  split at hF
  case isFalse hbody =>
    simp at hbody
  case isTrue =>
  cases hidx : idxGet idx "body" t with
  | error e =>
    rw [hidx] at hF
    simp only [py_bind_error] at hF
    exact Except.noConfusion hF
  | ok postings =>
  rw [hidx] at hF
  simp only [py_bind_ok] at hF
  rw [pyDiv] at hF
  split at hF
  case isTrue =>
    simp only [py_bind_error] at hF
    exact Except.noConfusion hF
  case isFalse hplen =>
  simp only [py_bind_ok] at hF
  rw [pyLog] at hF
  split at hF
  case isFalse =>
    simp only [py_bind_error] at hF
    exact Except.noConfusion hF
  case isTrue hpos =>
  simp only [py_bind_ok] at hF
  rw [ScorerBM25F.fieldLoop] at hF
  simp only [py_bind_ok] at hF
  rw [pyDiv] at hF
  split at hF
  case isTrue =>
    simp only [py_bind_error] at hF
    exact Except.noConfusion hF
  case isFalse hkc =>
  simp only [py_bind_ok, py_pure_eq_ok] at hF
  have hrFv := (Except.ok.inj hF).symm
  by_cases ht : t ∈ terms
  · rw [if_pos ht, hidx] at hB
    simp only [py_bind_ok] at hB
    rw [pyDiv, if_neg hplen] at hB
    simp only [py_bind_ok] at hB
    rw [pyLog, if_pos hpos] at hB
    simp only [py_bind_ok] at hB
    rw [havg] at hB
    simp only [py_bind_ok] at hB
    rw [pyDiv, if_neg hA] at hB
    simp only [py_bind_ok] at hB
    rw [pyDiv] at hB
    split at hB
    next =>
      simp only [py_bind_error] at hB
      exact Except.noConfusion hB
    next hden =>
    simp only [py_bind_ok, py_pure_eq_ok] at hB
    have hrBv := (Except.ok.inj hB).symm
    rw [hrFv, hrBv, optVal, optVal, Option.getD_some, Option.getD_some]
    exact bm25_saturation_algebra _ _ _ _ hBne hkc hden hk
  · rw [if_neg ht] at hB
    simp only [py_pure_eq_ok] at hB
    have hrBv : rB = none := (Except.ok.inj hB).symm
    rw [hrFv, hrBv, optVal, optVal, Option.getD_some, Option.getD_none]
    rw [countTerm_eq_zero ht]
    push_cast
    simp [zero_div]

theorem bm25f_single_term_rel (c : DocumentCollection) (idx : Index)
    (b k1 : ℝ) (hk : 1 + k1 ≠ 0) (t : String) (qf qf' : Nat)
    (sF sB sF' sB' : Scores)
    (hF : ScorerBM25F.score_term c idx ["body"] [1] [b] k1 t qf sF = .ok sF')
    (hB : ScorerBM25.score_term c idx "body" b k1 t qf' sB = .ok sB')
    (d : String) :
    getScore sF' d - getScore sF d =
      (getScore sB' d - getScore sB d) * (1 + k1)⁻¹ := by
  rw [ScorerBM25F.score_term, forEachDoc_eq] at hF
  rw [ScorerBM25.score_term, forEachDoc_eq] at hB
  cases hdsF : runContribs (ScorerBM25F.contrib c idx ["body"] [1] [b] k1 t) c
    with
  | error e =>
    rw [hdsF] at hF
    simp only [py_map_error] at hF
    exact Except.noConfusion hF
  | ok dsF =>
  cases hdsB : runContribs (ScorerBM25.contrib c idx "body" b k1 t) c with
  | error e =>
    rw [hdsB] at hB
    simp only [py_map_error] at hB
    exact Except.noConfusion hB
  | ok dsB =>
  rw [hdsF] at hF
  rw [hdsB] at hB
  simp only [py_map_ok] at hF hB
  have hsF' : sF' = applyDeltas sF dsF := (Except.ok.inj hF).symm
  have hsB' : sB' = applyDeltas sB dsB := (Except.ok.inj hB).symm
  have hsum := runContribs_rel (bm25f_single_contrib_rel c idx b k1 hk t)
    hdsF hdsB d
  rw [hsF', hsB', getScore_applyDeltas, getScore_applyDeltas, hsum]
  ring

/-- C2 (amended): with the single field `"body"`, field weight 1.0 and the
same `b` and `k1` (with `1 + k1 ≠ 0`), whenever both calls succeed on the
same query, `ScorerBM25F` returns for every document exactly the `ScorerBM25`
score divided by `1 + k1` (absence from a mapping read as 0) — not an equal
score. -/
theorem C2_bm25f_vs_bm25 (c : DocumentCollection) (idx : Index)
    (b k1 : ℝ) (q : List String) (hk : 1 + k1 ≠ 0) (sF sB : Scores)
    (hF : ScorerBM25F.score_collection c idx ["body"] [1] [b] k1 q = .ok sF)
    (hB : ScorerBM25.score_collection c idx "body" b k1 q = .ok sB)
    (d : String) :
    getScore sF d = getScore sB d * (1 + k1)⁻¹ := by
  rw [ScorerBM25F.score_collection, runScorer] at hF
  rw [ScorerBM25.score_collection, runScorer] at hB
  refine foldScore_rel ?_ (counter q) [] [] sF sB hF hB (fun e => by simp) d
  intro t qf sF0 sB0 sF0' sB0' h1 h2 e
  exact bm25f_single_term_rel c idx b k1 hk t qf qf sF0 sB0 sF0' sB0' h1 h2 e

/-- C2 counterexample: single field `"body"`, weight 1.0, b = 3/4, k1 = 6/5:
BM25F scores d1 as `(5/11)·ln 2` while BM25 scores it `ln 2`, so the
mappings are not numerically equal (they differ by the factor `1 + k1`). -/
theorem C2_counterexample :
    ScorerBM25F.score_collection
        [("d1", [("body", ["a"])]), ("d2", [("body", ["b"])])]
        [("body", [("a", ["d1"]), ("b", ["d2"])])]
        ["body"] [1] [3 / 4] (6 / 5) ["a"] =
      .ok [("d1", 5 / 11 * Real.log 2), ("d2", 0)] ∧
      ScorerBM25.score_collection
        [("d1", [("body", ["a"])]), ("d2", [("body", ["b"])])]
        [("body", [("a", ["d1"]), ("b", ["d2"])])]
        "body" (3 / 4) (6 / 5) ["a"] = .ok [("d1", Real.log 2)] ∧
      getScore [("d1", 5 / 11 * Real.log 2), ("d2", (0 : ℝ))] "d1" ≠
        getScore [("d1", Real.log 2)] "d1" := by
  refine ⟨?_, ?_, ?_⟩
  · simp +decide [ScorerBM25F.score_collection, runScorer, counter,
      firstOccurrences, ScorerBM25F.score_term, ScorerBM25F.contrib,
      ScorerBM25F.fieldLoop, forEachDoc, pyGetField, pyIdx, pyDiv, pyLog,
      idxGet, DocumentCollection.avg_field_length,
      DocumentCollection.total_field_length, fieldSeqs, countTerm, addScore,
      List.find?, List.filter, List.foldlM]
    try norm_num
  · simp +decide [ScorerBM25.score_collection, runScorer, counter,
      firstOccurrences, ScorerBM25.score_term, ScorerBM25.contrib, forEachDoc,
      pyGetField, pyDiv, pyLog, idxGet, DocumentCollection.avg_field_length,
      DocumentCollection.total_field_length, fieldSeqs, countTerm, addScore,
      List.find?, List.filter, List.foldlM]
    try norm_num
  · simp +decide [getScore, lookupScore, List.find?]
    have hlog : 0 < Real.log 2 := Real.log_pos (by norm_num)
    intro h
    nlinarith [hlog, h]

/-- C2 witness: the amended factor-`(1+k1)` relation instantiated on the
concrete collection of the counterexample. -/
theorem C2_bm25f_vs_bm25_witness :
    ScorerBM25F.score_collection
        [("d1", [("body", ["a"])]), ("d2", [("body", ["b"])])]
        [("body", [("a", ["d1"]), ("b", ["d2"])])]
        ["body"] [1] [3 / 4] (6 / 5) ["a"] =
      .ok [("d1", 5 / 11 * Real.log 2), ("d2", 0)] ∧
      ScorerBM25.score_collection
        [("d1", [("body", ["a"])]), ("d2", [("body", ["b"])])]
        [("body", [("a", ["d1"]), ("b", ["d2"])])]
        "body" (3 / 4) (6 / 5) ["a"] = .ok [("d1", Real.log 2)] ∧
      getScore [("d1", 5 / 11 * Real.log 2), ("d2", (0 : ℝ))] "d1" =
        getScore [("d1", Real.log 2)] "d1" * (1 + 6 / 5)⁻¹ := by
  have hF : ScorerBM25F.score_collection
      [("d1", [("body", ["a"])]), ("d2", [("body", ["b"])])]
      [("body", [("a", ["d1"]), ("b", ["d2"])])]
      ["body"] [1] [3 / 4] (6 / 5) ["a"] =
      .ok [("d1", 5 / 11 * Real.log 2), ("d2", 0)] := by
    simp +decide [ScorerBM25F.score_collection, runScorer, counter,
      firstOccurrences, ScorerBM25F.score_term, ScorerBM25F.contrib,
      ScorerBM25F.fieldLoop, forEachDoc, pyGetField, pyIdx, pyDiv, pyLog,
      idxGet, DocumentCollection.avg_field_length,
      DocumentCollection.total_field_length, fieldSeqs, countTerm, addScore,
      List.find?, List.filter, List.foldlM]
    try norm_num
  have hB : ScorerBM25.score_collection
      [("d1", [("body", ["a"])]), ("d2", [("body", ["b"])])]
      [("body", [("a", ["d1"]), ("b", ["d2"])])]
      "body" (3 / 4) (6 / 5) ["a"] = .ok [("d1", Real.log 2)] := by
    simp +decide [ScorerBM25.score_collection, runScorer, counter,
      firstOccurrences, ScorerBM25.score_term, ScorerBM25.contrib, forEachDoc,
      pyGetField, pyDiv, pyLog, idxGet, DocumentCollection.avg_field_length,
      DocumentCollection.total_field_length, fieldSeqs, countTerm, addScore,
      List.find?, List.filter, List.foldlM]
    try norm_num
  exact ⟨hF, hB,
    C2_bm25f_vs_bm25
      [("d1", [("body", ["a"])]), ("d2", [("body", ["b"])])]
      [("body", [("a", ["d1"]), ("b", ["d2"])])]
      (3 / 4) (6 / 5) ["a"] (by norm_num) _ _ hF hB "d1"⟩
